import Mathlib

/-
Verification of the audio-visual post-processing pipeline of the
srijan-engine repository (src/src/audio/audio_visual_merger.py,
src/src/audio/lip_sync_engine.py, src/src/blender/vfx_processor.py).

The Python code is shallowly embedded: numpy float arrays become lists or
functions over exact real numbers, integer-typed pixels become integers,
and library calls (librosa, pydub, OpenCV) are modelled by their
mathematical definitions.  Randomness (np.random.normal) is modelled by an
explicit noise-field argument scaled by the requested standard deviation.
-/

namespace Srijan

/-! ## Python / numpy numeric primitives -/

/-- Python int(x) / C-style float-to-int conversion: truncation toward zero. -/
def pyTrunc {α : Type} [LinearOrderedRing α] [FloorRing α] (x : α) : ℤ :=
  if x < 0 then ⌈x⌉ else ⌊x⌋

/-- np.clip(x, lo, hi) = np.minimum(hi, np.maximum(lo, x)). -/
def clip {α : Type} [LinearOrder α] (lo hi x : α) : α :=
  min hi (max lo x)

/-- Saturating 16-bit addition, audioop.add semantics (pydub overlay mixing). -/
def satAdd16 (x y : ℤ) : ℤ :=
  max (-32768) (min 32767 (x + y))

/-- Saturating clamp into signed 16-bit range (audioop truncates on overflow). -/
def satInt16 (z : ℤ) : ℤ :=
  max (-32768) (min 32767 z)

/-- OpenCV saturate_cast<uchar> applied to an already rounded integer. -/
def satCast255 (z : ℤ) : ℤ :=
  max 0 (min 255 z)

/-- numpy .astype(np.uint8) on a float: C truncation toward zero, then the
value is taken modulo 2^8 (wraparound for out-of-range inputs). -/
noncomputable def toUint8 (x : ℝ) : ℤ :=
  pyTrunc x % 256

/-! ## Audio ducking (AudioVisualMerger.apply_audio_ducking)

librosa decodes each file to a float waveform in [-1, 1]; decoded waveforms
are the List ℝ inputs here.  The resampling branch (only taken when the two
files disagree on sample rate) is the external librosa.resample and is not
modelled: the embedded function takes both waveforms at the common rate sr. -/

/-- Read sample z of a waveform, 0 outside the array.  Combined with taking
indices up to the padded length this models np.pad(..., mode='constant'). -/
def vIdx (v : List ℝ) (z : ℤ) : ℝ :=
  if 0 ≤ z then v.getD z.toNat 0 else 0

/-- One entry of np.convolve(voice**2, np.ones(2048)/2048, mode='same'):
the centred 2048-sample moving average of squared samples (window
[i-1024, i+1023], zero-padded at the edges). -/
noncomputable def movAvgSq (v : List ℝ) (i : ℕ) : ℝ :=
  (∑ k ∈ Finset.range 2048, vIdx v ((i : ℤ) + (k : ℤ) - 1024) ^ 2) / 2048

/-- voice_rms[i] = sqrt of the moving average of squared samples. -/
noncomputable def voiceRms (v : List ℝ) (i : ℕ) : ℝ :=
  Real.sqrt (movAvgSq v i)

/-- np.max(voice_rms) over the n samples of the (padded) waveform.  The fold
starts from 0, which agrees with the true maximum because every RMS value is
nonnegative (np.max errors out on an empty array; n = 0 never occurs when a
sample exists). -/
noncomputable def maxRms (v : List ℝ) (n : ℕ) : ℝ :=
  (List.range n).foldr (fun i m => max (voiceRms v i) m) 0

/-- voice_activity = voice_rms / (np.max(voice_rms) + 1e-10). -/
noncomputable def voiceActivity (v : List ℝ) (n : ℕ) (i : ℕ) : ℝ :=
  voiceRms v i / (maxRms v n + 1 / 10 ^ 10)

/-- 10 ** (duck_amount_db / 20.0), the target ducking gain. -/
noncomputable def duckGain (db : ℝ) : ℝ :=
  (10 : ℝ) ^ (db / 20)

/-- The ducking-envelope loop.  duck_envelope is initialised to all ones;
at sample i with voice activity above the 0.1 threshold it is set to the
duck gain g; otherwise, if the previous value is below 1.0 it is raised by
1/release_samples (capped at 1.0), and if the previous value is not below
1.0 the entry keeps its initial value 1.0. -/
noncomputable def duckEnvelope (g : ℝ) (rs : ℤ) (v : List ℝ) (n : ℕ) : ℕ → ℝ
  | 0 => if voiceActivity v n 0 > 1 / 10 then g else 1
  | i + 1 =>
      if voiceActivity v n (i + 1) > 1 / 10 then g
      else if duckEnvelope g rs v n i < 1 then
        min 1 (duckEnvelope g rs v n i + 1 / (rs : ℝ))
      else 1

/-- AudioVisualMerger.apply_audio_ducking, on decoded waveforms at common
sample rate sr.  Both waveforms are zero-padded to the longer length
(handled by vIdx plus ranging over maxLen), attack_samples is computed but
never used (exactly as in the source), and the ducked music is clamped to
[-1, 1] before being written out. -/
noncomputable def apply_audio_ducking (voice music : List ℝ) (duck_amount_db : ℝ)
    (attack_ms release_ms sr : ℚ) : List ℝ :=
  let maxLen := max voice.length music.length
  let _attack_samples : ℤ := pyTrunc (attack_ms * sr / 1000)
  let release_samples : ℤ := pyTrunc (release_ms * sr / 1000)
  let g := duckGain duck_amount_db
  (List.range maxLen).map fun (i : ℕ) =>
    clip (-1) 1 (vIdx music (i : ℤ) * duckEnvelope g release_samples voice maxLen i)

/-- Peak amplitude of a waveform (largest absolute sample, 0 if empty). -/
def peakAmp (l : List ℝ) : ℝ :=
  l.foldr (fun x m => max |x| m) 0

/-! ## Helper lemmas for the ducking engine -/

theorem duckGain_pos (db : ℝ) : 0 < duckGain db :=
  Real.rpow_pos_of_pos (by norm_num) _

theorem duckGain_le_one {db : ℝ} (h : db ≤ 0) : duckGain db ≤ 1 :=
  Real.rpow_le_one_of_one_le_of_nonpos (by norm_num)
    (div_nonpos_iff.mpr (Or.inr ⟨h, by norm_num⟩))

theorem duckEnvelope_bounds {g : ℝ} {rs : ℤ} (hg0 : 0 < g) (hg1 : g ≤ 1)
    (hrs : 1 ≤ rs) (v : List ℝ) (n : ℕ) :
    ∀ i, 0 < duckEnvelope g rs v n i ∧ duckEnvelope g rs v n i ≤ 1 := by
  have hrs0 : (0 : ℝ) < (rs : ℝ) := by exact_mod_cast lt_of_lt_of_le one_pos hrs
  have hinv : (0 : ℝ) < 1 / (rs : ℝ) := by positivity
  intro i
  induction i with
  | zero =>
      simp only [duckEnvelope]
      split_ifs
      · exact ⟨hg0, hg1⟩
      · exact ⟨one_pos, le_refl 1⟩
  | succ k ih =>
      simp only [duckEnvelope]
      split_ifs with h1 h2
      · exact ⟨hg0, hg1⟩
      · exact ⟨lt_min one_pos (by linarith [ih.1]), min_le_left _ _⟩
      · exact ⟨one_pos, le_refl 1⟩

theorem abs_clip_le (x : ℝ) : |clip (-1) 1 x| ≤ |x| := by
  unfold clip
  refine abs_le.mpr ⟨?_, ?_⟩
  · exact le_min (by linarith [abs_nonneg x]) ((neg_abs_le x).trans (le_max_right _ _))
  · exact (min_le_right _ _).trans (max_le (by linarith [abs_nonneg x]) (le_abs_self x))

theorem peakAmp_nonneg (l : List ℝ) : 0 ≤ peakAmp l := by
  induction l with
  | nil => simp [peakAmp]
  | cons a l ih => exact le_trans ih (le_max_right _ _)

theorem le_peakAmp {l : List ℝ} {x : ℝ} (h : x ∈ l) : |x| ≤ peakAmp l := by
  induction l with
  | nil => cases h
  | cons a l ih =>
      rcases List.mem_cons.mp h with h' | h'
      · subst h'; exact le_max_left _ _
      · exact (ih h').trans (le_max_right _ _)

theorem peakAmp_le {l : List ℝ} {B : ℝ} (hB : 0 ≤ B) (h : ∀ x ∈ l, |x| ≤ B) :
    peakAmp l ≤ B := by
  induction l with
  | nil => exact hB
  | cons a l ih =>
      exact max_le (h a (List.mem_cons_self a l))
        (ih fun x hx => h x (List.mem_cons_of_mem a hx))

theorem abs_vIdx_le_peakAmp (m : List ℝ) (z : ℤ) : |vIdx m z| ≤ peakAmp m := by
  unfold vIdx
  split_ifs with h
  · by_cases hlen : z.toNat < m.length
    · rw [List.getD_eq_getElem m 0 hlen]
      exact le_peakAmp (List.getElem_mem hlen)
    · rw [List.getD_eq_default m 0 (le_of_not_lt hlen)]
      simpa using peakAmp_nonneg m
  · simpa using peakAmp_nonneg m

/-! ## C1 and C4 -/

/-- C1: apply_audio_ducking computes the envelope exactly as specified:
its result does not depend on attack_ms at all; the output is the padded
music multiplied samplewise by the ducking envelope and clamped to [-1,1];
voice activity is the square root of the 2048-sample moving average of
squared voice samples (RMS), normalized by its own maximum (with the
source's 1e-10 anti-division-by-zero guard); and, whenever
release_samples ≥ 1, the envelope at a sample equals the duck gain
10^(duck_db/20) when activity exceeds the 0.1 threshold, and otherwise
recovers toward 1.0 by exactly 1/release_samples per sample (capped at 1.0,
with 1.0 as the value before the first sample). -/
theorem c1_ducking_envelope_spec (voice music : List ℝ) (db : ℝ)
    (a1 a2 rel sr : ℚ) (g : ℝ) (rs : ℤ) (n i : ℕ) (hrs : 1 ≤ rs) :
    apply_audio_ducking voice music db a1 rel sr
      = apply_audio_ducking voice music db a2 rel sr ∧
    apply_audio_ducking voice music db a1 rel sr
      = (List.range (max voice.length music.length)).map (fun (j : ℕ) =>
          clip (-1) 1 (vIdx music (j : ℤ) *
            duckEnvelope (duckGain db) (pyTrunc (rel * sr / 1000)) voice
              (max voice.length music.length) j)) ∧
    voiceActivity voice n i
      = Real.sqrt (movAvgSq voice i) / (maxRms voice n + 1 / 10 ^ 10) ∧
    duckEnvelope g rs voice n i
      = (if voiceActivity voice n i > 1 / 10 then g
         else min 1 ((if i = 0 then (1 : ℝ) else duckEnvelope g rs voice n (i - 1))
                      + 1 / (rs : ℝ))) := by
  have hrs0 : (0 : ℝ) < (rs : ℝ) := by exact_mod_cast lt_of_lt_of_le one_pos hrs
  have hinv : (0 : ℝ) < 1 / (rs : ℝ) := by positivity
  refine ⟨rfl, rfl, rfl, ?_⟩
  cases i with
  | zero =>
      simp only [duckEnvelope, if_pos rfl]
      split_ifs with h
      · rfl
      · rw [min_eq_left (by linarith)]
  | succ k =>
      simp only [duckEnvelope]
      by_cases h1 : voiceActivity voice n (k + 1) > 1 / 10
      · rw [if_pos h1, if_pos h1]
      · rw [if_neg h1, if_neg h1, Nat.add_sub_cancel, if_neg (Nat.succ_ne_zero k)]
        by_cases hp : duckEnvelope g rs voice n k < 1
        · rw [if_pos hp]
        · rw [if_neg hp]
          push_neg at hp
          exact (min_eq_left (by linarith)).symm

/-- C1 witness: the characterization instantiated at a concrete input. -/
theorem c1_ducking_envelope_spec_witness :
    apply_audio_ducking [] [] 0 0 0 0 = apply_audio_ducking [] [] 0 0 0 0 ∧
    apply_audio_ducking [] [] 0 0 0 0
      = (List.range (max (List.length ([] : List ℝ)) (List.length ([] : List ℝ)))).map
          (fun (j : ℕ) =>
          clip (-1) 1 (vIdx [] (j : ℤ) *
            duckEnvelope (duckGain 0) (pyTrunc ((0 : ℚ) * 0 / 1000)) []
              (max (List.length ([] : List ℝ)) (List.length ([] : List ℝ))) j)) ∧
    voiceActivity [] 0 0
      = Real.sqrt (movAvgSq [] 0) / (maxRms [] 0 + 1 / 10 ^ 10) ∧
    duckEnvelope 1 1 [] 0 0
      = (if voiceActivity [] 0 0 > 1 / 10 then 1
         else min 1 ((if 0 = 0 then (1 : ℝ) else duckEnvelope 1 1 [] 0 (0 - 1))
                      + 1 / ((1 : ℤ) : ℝ))) :=
  c1_ducking_envelope_spec [] [] 0 0 0 0 0 1 1 0 0 (by decide)

/-- C4: with duck_amount_db ≤ 0 and release_samples ≥ 1, every sample of the
ducking envelope lies in (0, 1], and the peak amplitude of the ducked music
never exceeds the peak amplitude of the original music. -/
theorem c4_envelope_invariant (voice music : List ℝ) (db : ℝ) (a rel sr : ℚ)
    (hdb : db ≤ 0) (hrs : 1 ≤ pyTrunc (rel * sr / 1000)) :
    (∀ i, 0 < duckEnvelope (duckGain db) (pyTrunc (rel * sr / 1000)) voice
            (max voice.length music.length) i ∧
          duckEnvelope (duckGain db) (pyTrunc (rel * sr / 1000)) voice
            (max voice.length music.length) i ≤ 1) ∧
    peakAmp (apply_audio_ducking voice music db a rel sr) ≤ peakAmp music := by
  have hb := duckEnvelope_bounds (duckGain_pos db) (duckGain_le_one hdb) hrs
    voice (max voice.length music.length)
  refine ⟨hb, ?_⟩
  apply peakAmp_le (peakAmp_nonneg music)
  intro x hx
  unfold apply_audio_ducking at hx
  obtain ⟨j, _, rfl⟩ := List.mem_map.mp hx
  calc |clip (-1) 1 (vIdx music (j : ℤ) *
          duckEnvelope (duckGain db) (pyTrunc (rel * sr / 1000)) voice
            (max voice.length music.length) j)|
      ≤ |vIdx music (j : ℤ) *
          duckEnvelope (duckGain db) (pyTrunc (rel * sr / 1000)) voice
            (max voice.length music.length) j| := abs_clip_le _
    _ = |vIdx music (j : ℤ)| *
          |duckEnvelope (duckGain db) (pyTrunc (rel * sr / 1000)) voice
            (max voice.length music.length) j| := abs_mul _ _
    _ ≤ |vIdx music (j : ℤ)| * 1 := by
          apply mul_le_mul_of_nonneg_left _ (abs_nonneg _)
          rw [abs_of_pos (hb j).1]
          exact (hb j).2
    _ = |vIdx music (j : ℤ)| := mul_one _
    _ ≤ peakAmp music := abs_vIdx_le_peakAmp music (j : ℤ)

/-- C4 witness: the invariant instantiated at a concrete input. -/
theorem c4_envelope_invariant_witness :
    (∀ i, 0 < duckEnvelope (duckGain 0) (pyTrunc ((1000 : ℚ) * 1000 / 1000)) []
            (max (List.length ([] : List ℝ)) (List.length ([] : List ℝ))) i ∧
          duckEnvelope (duckGain 0) (pyTrunc ((1000 : ℚ) * 1000 / 1000)) []
            (max (List.length ([] : List ℝ)) (List.length ([] : List ℝ))) i ≤ 1) ∧
    peakAmp (apply_audio_ducking [] [] 0 0 1000 1000) ≤ peakAmp [] :=
  c4_envelope_invariant [] [] 0 0 1000 1000 (le_refl 0) (by norm_num [pyTrunc])

/-! ## Data model: audio tracks, visual effects, merger state -/

/-- AudioTrack dataclass.  Float fields are embedded as exact rationals. -/
structure AudioTrack where
  path : String
  name : String
  duration : ℚ
  volume : ℚ
  start_time : ℚ
  fade_in : ℚ
  fade_out : ℚ

/-- VisualEffect dataclass.  The parameters dict is embedded as an
association list (only its color_temp key is ever read by the source). -/
structure VisualEffect where
  effect_type : String
  intensity : ℝ
  start_frame : ℤ
  end_frame : ℤ
  parameters : List (String × String)

/-- The mutable state of an AudioVisualMerger instance that the claims
observe: its track list, effect list and processing log. -/
structure MergerState where
  audio_tracks : List AudioTrack
  visual_effects : List VisualEffect
  processing_log : List String

/-! ## pydub model and mix_audio_tracks

pydub AudioSegments are embedded as lists of (idealised mono) signed 16-bit
PCM samples; overlay mixes with the saturating addition of audioop.add. -/

/-- pydub gain: `audio + gain_db` scales samples by 10^(gain_db/20); the
source passes gain_db = 20*log10(volume).  audioop.mul truncates each
scaled sample and saturates to 16-bit range. -/
noncomputable def volumeRatio (v : ℚ) : ℝ :=
  (10 : ℝ) ^ ((20 * Real.logb 10 (v : ℝ)) / 20)

/-- Modelled from pydub (external library): samplewise gain application. -/
noncomputable def applyGainSeg (v : ℚ) (s : List ℤ) : List ℤ :=
  s.map fun x => satInt16 (pyTrunc (volumeRatio v * (x : ℝ)))

/-- Milliseconds to a sample count at rate sr (pydub frame_count). -/
def msToSamples (ms : ℤ) (sr : ℕ) : ℕ :=
  ((ms * sr) / 1000).toNat

/-- Modelled from pydub (external library): fade_in as a samplewise
amplitude ramp over the first n samples. -/
noncomputable def fadeInSeg (n : ℕ) (s : List ℤ) : List ℤ :=
  s.mapIdx fun k x => satInt16 (pyTrunc (min 1 ((k : ℝ) / (n : ℝ)) * (x : ℝ)))

/-- Modelled from pydub (external library): fade_out as a samplewise
amplitude ramp over the last n samples. -/
noncomputable def fadeOutSeg (n : ℕ) (s : List ℤ) : List ℤ :=
  s.mapIdx fun k x =>
    satInt16 (pyTrunc (min 1 (((s.length - k : ℕ) : ℝ) / (n : ℝ)) * (x : ℝ)))

/-- The per-track processing of mix_audio_tracks before overlaying: volume
gain only when volume ≠ 1.0, fades only when their durations are positive. -/
noncomputable def processTrack (sr : ℕ) (t : AudioTrack) (seg : List ℤ) : List ℤ :=
  let seg1 := if t.volume ≠ 1 then applyGainSeg t.volume seg else seg
  let seg2 := if 0 < t.fade_in then
      fadeInSeg (msToSamples (pyTrunc (t.fade_in * 1000)) sr) seg1 else seg1
  if 0 < t.fade_out then
    fadeOutSeg (msToSamples (pyTrunc (t.fade_out * 1000)) sr) seg2 else seg2

/-- pydub AudioSegment.overlay: keeps the base segment's length, and adds
the overlaid segment's samples (saturating) starting at sample `pos`. -/
def overlay (a b : List ℤ) (pos : ℕ) : List ℤ :=
  (List.range a.length).map fun i =>
    if pos ≤ i ∧ i - pos < b.length then satAdd16 (a.getD i 0) (b.getD (i - pos) 0)
    else a.getD i 0

/-- One iteration of the mixing loop: the first track becomes the combined
buffer directly; every later track is overlaid at position
int(start_time*1000) milliseconds. -/
noncomputable def mixStep (sr : ℕ) (acc : Option (List ℤ)) (p : AudioTrack × List ℤ) :
    Option (List ℤ) :=
  match acc with
  | none => some (processTrack sr p.1 p.2)
  | some c => some (overlay c (processTrack sr p.1 p.2)
      (msToSamples (pyTrunc (p.1.start_time * 1000)) sr))

/-- The accumulation loop of AudioVisualMerger.mix_audio_tracks over the
decoded tracks (before the optional normalize and the export). -/
noncomputable def mixCombine (sr : ℕ) (pairs : List (AudioTrack × List ℤ)) :
    Option (List ℤ) :=
  pairs.foldl (mixStep sr) none

/-- Modelled from pydub (external library): normalize rescales so the peak
reaches full scale (with pydub's 0.1 dB headroom). -/
noncomputable def pydubNormalize (s : List ℤ) : List ℤ :=
  let peak := s.foldr (fun x m => max |x| m) 0
  if peak = 0 then s
  else s.map fun x =>
    satInt16 (pyTrunc ((10 : ℝ) ^ (-(1 : ℝ) / 200) * 32767 / (peak : ℝ) * (x : ℝ)))

/-- mix_audio_tracks on decoded tracks: accumulate, then normalize if asked. -/
noncomputable def mix_audio_tracks_waveform (sr : ℕ)
    (pairs : List (AudioTrack × List ℤ)) (normalize : Bool) : Option (List ℤ) :=
  (mixCombine sr pairs).map fun c => if normalize then pydubNormalize c else c

/-- Modelled from the spec: "overlay (sample-accurate additive mix, not
replacement) onto the accumulating output buffer at sample offset
start_time*sample_rate" — every track, including the first one added, is
additively overlaid at its own start_time offset into an initially silent
buffer covering all tracks. -/
noncomputable def mixTracksSpec (sr : ℕ) (pairs : List (AudioTrack × List ℤ)) :
    List ℤ :=
  let off := fun (t : AudioTrack) => (pyTrunc (t.start_time * sr)).toNat
  let len := pairs.foldr (fun p m => max (off p.1 + (processTrack sr p.1 p.2).length) m) 0
  pairs.foldl (fun acc p => overlay acc (processTrack sr p.1 p.2) (off p.1))
    (List.replicate len 0)

theorem mixStep_foldl_some (sr : ℕ) (rest : List (AudioTrack × List ℤ)) :
    ∀ c : List ℤ, rest.foldl (mixStep sr) (some c)
      = some (rest.foldl (fun c p => overlay c (processTrack sr p.1 p.2)
          (msToSamples (pyTrunc (p.1.start_time * 1000)) sr)) c) := by
  induction rest with
  | nil => intro c; rfl
  | cons p ps ih =>
      intro c
      simp only [List.foldl_cons, mixStep]
      exact ih _

/-! ## C3 -/

/-- C3 counterexample: for a single track with start_time = 1 s at a 1 Hz
sample rate, the code's accumulation loop returns the track's samples at
offset 0 (the first track is taken as the base buffer, its start_time
ignored), whereas the claimed behaviour — every track, including the first,
additively overlaid at sample offset start_time*sample_rate — places them
at offset 1. -/
theorem c3_counterexample_first_track_offset :
    mixCombine 1 [(⟨"m.wav", "music", 1, 1, 1, 0, 0⟩, [100])]
      ≠ some (mixTracksSpec 1 [(⟨"m.wav", "music", 1, 1, 1, 0, 0⟩, [100])]) := by
  have hproc : processTrack 1 ⟨"m.wav", "music", 1, 1, 1, 0, 0⟩ [100] = [100] := by decide
  have hoff : (pyTrunc ((1 : ℚ) * ((1 : ℕ) : ℚ))).toNat = 1 := by norm_num [pyTrunc]
  have hcode : mixCombine 1 [(⟨"m.wav", "music", 1, 1, 1, 0, 0⟩, [100])] = some [100] := by
    decide
  have hspec : mixTracksSpec 1 [(⟨"m.wav", "music", 1, 1, 1, 0, 0⟩, [100])] = [0, 100] := by
    simp only [mixTracksSpec, List.foldr, List.foldl, hproc, hoff, List.length_cons,
      List.length_nil]
    decide
  rw [hcode, hspec]
  decide

/-- C3 amended: in mix_audio_tracks, the first track becomes the base
output buffer directly (its start_time is ignored), and every subsequent
track is additively overlaid — samplewise saturating addition, not
replacement — onto the accumulating buffer at the offset given by
int(start_time*1000) milliseconds, with the result truncated to the base
buffer's length. -/
theorem c3_mixing_amended (sr : ℕ) (t : AudioTrack) (seg : List ℤ)
    (rest : List (AudioTrack × List ℤ)) (a b : List ℤ) (pos i : ℕ)
    (hi : i < a.length) :
    mixCombine sr ((t, seg) :: rest)
      = some (rest.foldl (fun c p => overlay c (processTrack sr p.1 p.2)
          (msToSamples (pyTrunc (p.1.start_time * 1000)) sr)) (processTrack sr t seg)) ∧
    mixCombine sr [(t, seg)] = some (processTrack sr t seg) ∧
    (overlay a b pos).getD i 0
      = (if pos ≤ i ∧ i - pos < b.length then satAdd16 (a.getD i 0) (b.getD (i - pos) 0)
         else a.getD i 0) ∧
    (overlay a b pos).length = a.length := by
  refine ⟨?_, ?_, ?_, ?_⟩
  · unfold mixCombine
    simp only [List.foldl_cons, mixStep]
    exact mixStep_foldl_some sr rest _
  · rfl
  · unfold overlay
    rw [List.getD_eq_getElem _ 0 (by simpa using hi)]
    simp [hi]
  · simp [overlay]

/-- C3 amended witness: the characterization at a concrete input. -/
theorem c3_mixing_amended_witness :
    mixCombine 1 [(⟨"v.wav", "voice", 1, 1, 0, 0, 0⟩, [5])]
      = some (([] : List (AudioTrack × List ℤ)).foldl
          (fun c p => overlay c (processTrack 1 p.1 p.2)
            (msToSamples (pyTrunc (p.1.start_time * 1000)) 1))
          (processTrack 1 ⟨"v.wav", "voice", 1, 1, 0, 0, 0⟩ [5])) ∧
    mixCombine 1 [(⟨"v.wav", "voice", 1, 1, 0, 0, 0⟩, [5])]
      = some (processTrack 1 ⟨"v.wav", "voice", 1, 1, 0, 0, 0⟩ [5]) ∧
    (overlay [5] [7] 0).getD 0 0
      = (if 0 ≤ 0 ∧ 0 - 0 < List.length [7] then
           satAdd16 (List.getD [5] 0 0) (List.getD [7] (0 - 0) 0)
         else List.getD [5] 0 0) ∧
    (overlay [5] [7] 0).length = List.length [5] :=
  c3_mixing_amended 1 ⟨"v.wav", "voice", 1, 1, 0, 0, 0⟩ [5] [] [5] [7] 0 0 (by decide)

/-! ## C10: state is untouched when ducking or mixing fails -/

/-- AudioVisualMerger.apply_audio_ducking viewed as a state transition.
The decoded waveforms are Options (librosa.load failing = none) and the
success of soundfile.write is the write_ok flag; the source appends to
processing_log only after sf.write returns, and re-raises on any error
without touching the instance state. -/
noncomputable def apply_audio_ducking_step (st : MergerState)
    (voice music : Option (List ℝ)) (duck_amount_db : ℝ)
    (attack_ms release_ms sr : ℚ) (write_ok : Bool) (output_path : String) :
    MergerState × Except String String :=
  match voice, music with
  | some v, some m =>
      let _ducked := apply_audio_ducking v m duck_amount_db attack_ms release_ms sr
      if write_ok then
        ({ st with processing_log :=
            st.processing_log ++ ["Applied ducking: " ++ output_path] },
         Except.ok output_path)
      else (st, Except.error "Error applying audio ducking")
  | _, _ => (st, Except.error "Error applying audio ducking")

/-- Decode every registered track (AudioSegment.from_file); any failure
aborts the whole mix, as the source's try block re-raises. -/
def decodeTracks : List AudioTrack → (String → Option (List ℤ)) →
    Option (List (AudioTrack × List ℤ))
  | [], _ => some []
  | t :: ts, d =>
      match d t.path, decodeTracks ts d with
      | some s, some rest => some ((t, s) :: rest)
      | _, _ => none

/-- AudioVisualMerger.mix_audio_tracks viewed as a state transition: with
no tracks it returns None without logging; a decode or export failure
re-raises leaving the state untouched; on success the log entry is
appended only after combined.export succeeds. -/
noncomputable def mix_audio_tracks_step (st : MergerState)
    (decode : String → Option (List ℤ)) (sr : ℕ) (normalize : Bool)
    (export_ok : Bool) (output_path : String) :
    MergerState × Except String (Option String) :=
  if st.audio_tracks.isEmpty then (st, Except.ok none)
  else
    match decodeTracks st.audio_tracks decode with
    | none => (st, Except.error "Error mixing audio tracks")
    | some pairs =>
        let _mixed := mix_audio_tracks_waveform sr pairs normalize
        if export_ok then
          ({ st with processing_log := st.processing_log ++
              ["Mixed " ++ toString st.audio_tracks.length ++ " tracks: " ++ output_path] },
           Except.ok (some output_path))
        else (st, Except.error "Error mixing audio tracks")

/-- C10: if apply_audio_ducking or mix_audio_tracks terminates with an
error, the merger's observable state (audio_tracks, visual_effects,
processing_log) is exactly as before the call; on success, the state
change is precisely the log entry appended after the output file has been
produced. -/
theorem c10_state_preserved_on_error
    (st1 st2 st3 st4 : MergerState) (v1 m1 v3 m3 : Option (List ℝ))
    (db1 db3 : ℝ) (a1 r1 s1 a3 r3 s3 : ℚ) (w1 w3 : Bool) (p1 p3 : String)
    (d2 d4 : String → Option (List ℤ)) (sr2 sr4 : ℕ) (n2 n4 x2 x4 : Bool)
    (q2 q4 : String) (e1 e2 : String) (o3 o4 : String)
    (h1 : (apply_audio_ducking_step st1 v1 m1 db1 a1 r1 s1 w1 p1).2 = Except.error e1)
    (h2 : (mix_audio_tracks_step st2 d2 sr2 n2 x2 q2).2 = Except.error e2)
    (h3 : (apply_audio_ducking_step st3 v3 m3 db3 a3 r3 s3 w3 p3).2 = Except.ok o3)
    (h4 : (mix_audio_tracks_step st4 d4 sr4 n4 x4 q4).2 = Except.ok (some o4)) :
    (apply_audio_ducking_step st1 v1 m1 db1 a1 r1 s1 w1 p1).1 = st1 ∧
    (mix_audio_tracks_step st2 d2 sr2 n2 x2 q2).1 = st2 ∧
    (apply_audio_ducking_step st3 v3 m3 db3 a3 r3 s3 w3 p3).1
      = { st3 with processing_log := st3.processing_log ++ ["Applied ducking: " ++ p3] } ∧
    (mix_audio_tracks_step st4 d4 sr4 n4 x4 q4).1
      = { st4 with processing_log := st4.processing_log ++
          ["Mixed " ++ toString st4.audio_tracks.length ++ " tracks: " ++ q4] } := by
  refine ⟨?_, ?_, ?_, ?_⟩
  · rcases v1 with _ | v
    · cases m1 <;> rfl
    · rcases m1 with _ | m
      · rfl
      · cases w1
        · rfl
        · exfalso; simp [apply_audio_ducking_step] at h1
  · cases hb : st2.audio_tracks.isEmpty
    · cases hd : decodeTracks st2.audio_tracks d2
      · simp [mix_audio_tracks_step, hb, hd]
      · cases x2
        · simp [mix_audio_tracks_step, hb, hd]
        · exfalso; simp [mix_audio_tracks_step, hb, hd] at h2
    · exfalso; simp [mix_audio_tracks_step, hb] at h2
  · rcases v3 with _ | v
    · exfalso; cases m3 <;> simp [apply_audio_ducking_step] at h3
    · rcases m3 with _ | m
      · exfalso; simp [apply_audio_ducking_step] at h3
      · cases w3
        · exfalso; simp [apply_audio_ducking_step] at h3
        · rfl
  · cases hb : st4.audio_tracks.isEmpty
    · cases hd : decodeTracks st4.audio_tracks d4
      · exfalso; simp [mix_audio_tracks_step, hb, hd] at h4
      · cases x4
        · exfalso; simp [mix_audio_tracks_step, hb, hd] at h4
        · simp [mix_audio_tracks_step, hb, hd]
    · exfalso; simp [mix_audio_tracks_step, hb] at h4

/-- C10 witness: the state-preservation conclusions at concrete calls. -/
theorem c10_state_preserved_on_error_witness :
    (apply_audio_ducking_step ⟨[], [], []⟩ none none 0 0 0 0 false "d.wav").1
      = (⟨[], [], []⟩ : MergerState) ∧
    (mix_audio_tracks_step ⟨[⟨"x.wav", "x", 0, 1, 0, 0, 0⟩], [], []⟩
        (fun _ => none) 1 false false "m.wav").1
      = (⟨[⟨"x.wav", "x", 0, 1, 0, 0, 0⟩], [], []⟩ : MergerState) ∧
    (apply_audio_ducking_step ⟨[], [], []⟩ (some []) (some []) 0 0 0 0 true "d.wav").1
      = { (⟨[], [], []⟩ : MergerState) with processing_log :=
          (⟨[], [], []⟩ : MergerState).processing_log ++ ["Applied ducking: " ++ "d.wav"] } ∧
    (mix_audio_tracks_step ⟨[⟨"x.wav", "x", 0, 1, 0, 0, 0⟩], [], []⟩
        (fun _ => some []) 1 false true "m.wav").1
      = { (⟨[⟨"x.wav", "x", 0, 1, 0, 0, 0⟩], [], []⟩ : MergerState) with processing_log :=
          (⟨[⟨"x.wav", "x", 0, 1, 0, 0, 0⟩], [], []⟩ : MergerState).processing_log ++
          ["Mixed " ++ toString (⟨[⟨"x.wav", "x", 0, 1, 0, 0, 0⟩], [], []⟩
              : MergerState).audio_tracks.length ++ " tracks: " ++ "m.wav"] } :=
  c10_state_preserved_on_error
    ⟨[], [], []⟩ ⟨[⟨"x.wav", "x", 0, 1, 0, 0, 0⟩], [], []⟩ ⟨[], [], []⟩
    ⟨[⟨"x.wav", "x", 0, 1, 0, 0, 0⟩], [], []⟩
    none none (some []) (some []) 0 0 0 0 0 0 0 0 false true "d.wav" "d.wav"
    (fun _ => none) (fun _ => some []) 1 1 false false false true "m.wav" "m.wav"
    "Error applying audio ducking" "Error mixing audio tracks" "d.wav" "m.wav"
    rfl rfl rfl rfl

/-! ## Frame model and filter bank

Frames are h×w grids of three-channel pixels (channel 0 = blue, 1 = green,
2 = red, OpenCV's BGR order), embedded as integer-valued functions; uint8
data means all values lie in [0,255].  Filter-internal float arrays are
real-valued. -/

structure Frame where
  h : ℕ
  w : ℕ
  pix : ℤ → ℤ → Fin 3 → ℤ

/-- All pixels inside the frame's bounds are valid uint8 values. -/
def FrameInRange (f : Frame) : Prop :=
  ∀ (i j : ℤ) (c : Fin 3), 0 ≤ i → i < f.h → 0 ≤ j → j < f.w →
    0 ≤ f.pix i j c ∧ f.pix i j c ≤ 255

/-- OpenCV BORDER_REFLECT_101 index folding into [0, n). -/
def reflect101 (n : ℕ) (z : ℤ) : ℤ :=
  if n ≤ 1 then 0
  else
    let p : ℤ := 2 * n - 2
    let r := z % p
    if r < n then r else p - r

/-- Read a pixel with OpenCV's default reflected border handling. -/
def sampleR (f : Frame) (i j : ℤ) (c : Fin 3) : ℤ :=
  f.pix (reflect101 f.h i) (reflect101 f.w j) c

/-- cv2.getGaussianKernel coefficient before normalization; a nonpositive
sigma is replaced by OpenCV's automatic 0.3*((ksize-1)*0.5 - 1) + 0.8. -/
noncomputable def gaussCoeff (n : ℕ) (σ : ℝ) (t : ℕ) : ℝ :=
  let sig := if σ ≤ 0 then (3 / 10) * (((n : ℝ) - 1) * (1 / 2) - 1) + 4 / 5 else σ
  Real.exp (-(((t : ℝ) - ((n : ℝ) - 1) / 2) ^ 2) / (2 * sig ^ 2))

/-- cv2.getGaussianKernel: coefficients normalized to sum 1. -/
noncomputable def gaussK (n : ℕ) (σ : ℝ) (t : ℕ) : ℝ :=
  gaussCoeff n σ t / ∑ u ∈ Finset.range n, gaussCoeff n σ u

/-- cv2.GaussianBlur of a (total) real-valued field with an n×n kernel. -/
noncomputable def gaussBlurField (n : ℕ) (σ : ℝ) (field : ℤ → ℤ → ℝ) (i j : ℤ) : ℝ :=
  ∑ a ∈ Finset.range n, ∑ b ∈ Finset.range n,
    gaussK n σ a * gaussK n σ b *
      field (i + (a : ℤ) - ((n - 1) / 2 : ℕ)) (j + (b : ℤ) - ((n - 1) / 2 : ℕ))

/-- One output value of cv2.filter2D (correlation) with a (2r+1)×(2r+1)
kernel on one channel, reflected borders. -/
noncomputable def conv2 (f : Frame) (c : Fin 3) (ker : ℤ → ℤ → ℝ) (r : ℕ) (i j : ℤ) : ℝ :=
  ∑ a ∈ Finset.range (2 * r + 1), ∑ b ∈ Finset.range (2 * r + 1),
    ker ((a : ℤ) - (r : ℤ)) ((b : ℤ) - (r : ℤ)) *
      (sampleR f (i + (a : ℤ) - (r : ℤ)) (j + (b : ℤ) - (r : ℤ)) c : ℝ)

/-- OpenCV's float32 BGR→HSV conversion (cv2.cvtColor, external library,
modelled by the exact color-space formulas) on channels in [0,1].  H is in
degrees [0,360), S and V in [0,1]. -/
noncomputable def bgr2hsv (b g r : ℝ) : ℝ × ℝ × ℝ :=
  let v := max r (max g b)
  let mn := min r (min g b)
  let d := v - mn
  let s := if v = 0 then 0 else d / v
  let hRaw := if v = r then 60 * (g - b) / d
              else if v = g then 120 + 60 * (b - r) / d
              else 240 + 60 * (r - g) / d
  (if hRaw < 0 then hRaw + 360 else hRaw, s, v)

/-- OpenCV's float32 HSV→BGR conversion (external library, modelled by the
exact sector formulas). -/
noncomputable def hsv2bgr (hh s v : ℝ) : ℝ × ℝ × ℝ :=
  let hp := hh / 60
  let f := hp - ⌊hp⌋
  let p := v * (1 - s)
  let q := v * (1 - s * f)
  let t := v * (1 - s * (1 - f))
  let sec := ⌊hp⌋ % 6
  if sec = 0 then (p, t, v)
  else if sec = 1 then (p, v, q)
  else if sec = 2 then (t, v, p)
  else if sec = 3 then (v, q, p)
  else if sec = 4 then (v, p, t)
  else (q, p, v)

/-- The per-pixel color transform of AudioVisualMerger.apply_color_grading
on [0,1]-normalized (b,g,r); an unknown color_temp leaves the pixel
unchanged (no branch taken). -/
noncomputable def gradePixel (intensity : ℝ) (color_temp : String) (b g r : ℝ) :
    ℝ × ℝ × ℝ :=
  if color_temp = "warm" then
    (b, clip 0 1 (g * (1 + intensity * (1 / 10))), clip 0 1 (r * (1 + intensity * (3 / 10))))
  else if color_temp = "cool" then
    (clip 0 1 (b * (1 + intensity * (3 / 10))), g, r)
  else if color_temp = "cinematic" then
    let hsv := bgr2hsv b g r
    hsv2bgr hsv.1 (hsv.2.1 * (1 - intensity * (3 / 10))) hsv.2.2
  else if color_temp = "vintage" then
    (b * (1 - intensity * (1 / 5)) + intensity * (1 / 5) * (1 / 2),
     g * (1 - intensity * (1 / 5)) + intensity * (1 / 5) * (1 / 2),
     r * (1 - intensity * (1 / 5)) + intensity * (1 / 5) * (1 / 2))
  else (b, g, r)

/-- AudioVisualMerger.apply_color_grading: normalize to [0,1], apply the
style transform, rescale by 255, clip and convert back to uint8. -/
noncomputable def apply_color_grading (f : Frame) (intensity : ℝ) (color_temp : String) :
    Frame :=
  ⟨f.h, f.w, fun i j c =>
    let p := gradePixel intensity color_temp
      ((f.pix i j 0 : ℝ) / 255) ((f.pix i j 1 : ℝ) / 255) ((f.pix i j 2 : ℝ) / 255)
    let x : ℝ := if c = 0 then p.1 else if c = 1 then p.2.1 else p.2.2
    toUint8 (clip 0 255 (x * 255))⟩

/-- The ValueError raised by np.random.normal when its scale is negative. -/
def errNormalScale : String := "ValueError: scale < 0"

/-- The cv2.error raised by GaussianBlur when the kernel size is not
positive and odd. -/
def errGaussKsize : String := "cv2.error: GaussianBlur ksize must be positive and odd"

/-- The ValueError raised by numpy broadcasting when the operand shapes are
incompatible. -/
def errBroadcast : String := "ValueError: operands could not be broadcast together"

/-- The cv2.error raised by blur when the kernel size is not positive. -/
def errBlurKsize : String := "cv2.error: blur ksize must be positive"

/-- The pixel arithmetic of AudioVisualMerger.apply_cinematic_grain, when it
runs: np.random.normal(0, intensity*20) is modelled as intensity*20 times a
standard-normal noise field, smoothed by GaussianBlur with the grain_size
kernel (sigma auto), added to every channel, then clipped to [0,255]. -/
noncomputable def apply_cinematic_grain_frame (f : Frame) (intensity : ℝ)
    (noise : ℤ → ℤ → ℝ) (grain_size : ℕ) : Frame :=
  let grain := fun (i j : ℤ) =>
    gaussBlurField grain_size 0 (fun a b => intensity * 20 * noise a b) i j
  ⟨f.h, f.w, fun i j c => toUint8 (clip 0 255 ((f.pix i j c : ℝ) + grain i j))⟩

/-- AudioVisualMerger.apply_cinematic_grain: np.random.normal raises for a
negative scale intensity*20, and cv2.GaussianBlur asserts that its kernel
size (grain_size, grain_size) is positive and odd — with the default
grain_size = 2 the call therefore always raises cv2.error. -/
noncomputable def apply_cinematic_grain (f : Frame) (intensity : ℝ)
    (noise : ℤ → ℤ → ℝ) (grain_size : ℕ) : Except String Frame :=
  if intensity * 20 < 0 then Except.error errNormalScale
  else if grain_size % 2 = 1 then
    Except.ok (apply_cinematic_grain_frame f intensity noise grain_size)
  else Except.error errGaussKsize

/-- AudioVisualMerger.apply_vignette: separable Gaussian kernels for width
and height (sigma = size/2), outer product normalized by its own maximum,
raised to the intensity power, multiplied into every channel. -/
noncomputable def apply_vignette (f : Frame) (intensity : ℝ) : Frame :=
  let ky := fun (i : ℕ) => gaussK f.h ((f.h : ℝ) / 2) i
  let kx := fun (j : ℕ) => gaussK f.w ((f.w : ℝ) / 2) j
  let kmax := (List.range f.h).foldr (fun i m =>
    max ((List.range f.w).foldr (fun j m' => max (ky i * kx j) m') 0) m) 0
  ⟨f.h, f.w, fun i j c =>
    toUint8 (clip 0 255 ((f.pix i j c : ℝ) * ((ky i.toNat * kx j.toNat / kmax) ^ intensity)))⟩

/-- The pixel arithmetic of VFXProcessor.apply_film_grain, when it runs:
one shared (grain_color = false) or three independent (grain_color = true)
standard-normal noise channels scaled by grain_intensity*50, smoothed with
a 3×3 Gaussian, added and clipped. -/
noncomputable def apply_film_grain_frame (f : Frame) (grain_intensity : ℝ)
    (grain_color : Bool) (noise : ℤ → ℤ → Fin 3 → ℝ) : Frame :=
  let grain := fun (i j : ℤ) (c : Fin 3) =>
    gaussBlurField 3 0
      (fun a b => grain_intensity * 50 * (if grain_color then noise a b c else noise a b 0)) i j
  ⟨f.h, f.w, fun i j c => toUint8 (clip 0 255 ((f.pix i j c : ℝ) + grain i j c))⟩

/-- VFXProcessor.apply_film_grain: np.random.normal raises ValueError when
its scale grain_intensity*50 is negative; otherwise the grain is generated,
blurred (the 3×3 kernel is valid), added and clipped. -/
noncomputable def apply_film_grain (f : Frame) (grain_intensity : ℝ)
    (grain_color : Bool) (noise : ℤ → ℤ → Fin 3 → ℝ) : Except String Frame :=
  if grain_intensity * 50 < 0 then Except.error errNormalScale
  else Except.ok (apply_film_grain_frame f grain_intensity grain_color noise)

/-- VFXProcessor.apply_unsharp_mask: subtract the Gaussian-blurred frame,
optionally threshold the difference, boost by amount, clip to [0,255]. -/
noncomputable def apply_unsharp_mask (f : Frame) (amount : ℝ) (radius : ℕ)
    (threshold : ℤ) : Frame :=
  let gaussian := fun (i j : ℤ) (c : Fin 3) =>
    satCast255 (round (gaussBlurField (radius * 2 + 1) 0
      (fun a b => (sampleR f a b c : ℝ)) i j))
  let diff := fun (i j : ℤ) (c : Fin 3) => (f.pix i j c : ℝ) - (gaussian i j c : ℝ)
  let diff2 := fun (i j : ℤ) (c : Fin 3) =>
    if 0 < threshold then (if (threshold : ℝ) ≤ |diff i j c| then diff i j c else 0)
    else diff i j c
  ⟨f.h, f.w, fun i j c => toUint8 (clip 0 255 ((f.pix i j c : ℝ) + amount * diff2 i j c))⟩

/-- cv2.Sobel 3×3 x-derivative kernel value at offset (a, b). -/
noncomputable def sobelKx (a b : ℤ) : ℝ :=
  (if a = 0 then 2 else 1) * (if b = 1 then 1 else if b = -1 then -1 else 0)

/-- One channel of cv2.Sobel(frame, CV_64F, 1, 0, ksize=3). -/
noncomputable def sobelX (f : Frame) (c : Fin 3) (i j : ℤ) : ℝ :=
  conv2 f c sobelKx 1 i j

/-- One channel of cv2.Sobel(frame, CV_64F, 0, 1, ksize=3). -/
noncomputable def sobelY (f : Frame) (c : Fin 3) (i j : ℤ) : ℝ :=
  conv2 f c (fun a b => sobelKx b a) 1 i j

/-- Per-channel Sobel gradient magnitude of apply_edge_enhance. -/
noncomputable def edgeMag (f : Frame) (c : Fin 3) (i j : ℤ) : ℝ :=
  Real.sqrt (sobelX f c i j ^ 2 + sobelY f c i j ^ 2)

/-- edges.max() over the whole (h, w, 3) magnitude array. -/
noncomputable def edgeMax (f : Frame) : ℝ :=
  (List.range f.h).foldr (fun i m =>
    max ((List.range f.w).foldr (fun j m' =>
      max (max (edgeMag f 0 i j) (max (edgeMag f 1 i j) (edgeMag f 2 i j))) m') 0) m) 0

/-- VFXProcessor.apply_edge_enhance: the magnitudes are normalized to
[0,255] uint8, then the source computes
frame_float + edges[:, :, np.newaxis] * strength * 0.1 where edges is
already (h, w, 3): the inserted axis makes the operands (1,h,w,3) and
(h,w,1,3), which numpy broadcasting rejects (ValueError) unless h = w or
one of the dimensions is 1, and which otherwise yields a 4-D
(h, max(h,w), w, 3) array — not a frame.  The ok result is that broadcast
array, index (a, b, c, d), built with numpy's size-1-axis index rules. -/
noncomputable def apply_edge_enhance_arr (f : Frame) (strength : ℝ) :
    ℤ → ℤ → ℤ → Fin 3 → ℤ :=
  let edgesN := fun (i j : ℤ) (c : Fin 3) => toUint8 (edgeMag f c i j / edgeMax f * 255)
  fun a b c d =>
    toUint8 (clip 0 255 ((f.pix (if f.h = 1 then 0 else b) c d : ℝ) +
      (edgesN a (if f.w = 1 then 0 else b) d : ℝ) * strength * (1 / 10)))

noncomputable def apply_edge_enhance (f : Frame) (strength : ℝ) :
    Except String (ℤ → ℤ → ℤ → Fin 3 → ℤ) :=
  if f.h = f.w ∨ f.h = 1 ∨ f.w = 1 then Except.ok (apply_edge_enhance_arr f strength)
  else Except.error errBroadcast

/-- VFXProcessor.apply_motion_blur: an even blur_amount is bumped to odd;
horizontal/vertical use an all-ones (unnormalized) rectangular kernel via
filter2D on uint8 data, whose saturate_cast clamps the sums; diagonal uses
the identity matrix divided by blur_amount. -/
noncomputable def apply_motion_blur (f : Frame) (direction : String)
    (blur_amount : ℕ) : Frame :=
  let amt := if blur_amount % 2 = 1 then blur_amount else blur_amount + 1
  ⟨f.h, f.w, fun i j c =>
    if direction = "horizontal" then
      satCast255 (round (∑ k ∈ Finset.range amt,
        (sampleR f i (j + (k : ℤ) - (amt / 2 : ℕ)) c : ℝ)))
    else if direction = "vertical" then
      satCast255 (round (∑ k ∈ Finset.range amt,
        (sampleR f (i + (k : ℤ) - (amt / 2 : ℕ)) j c : ℝ)))
    else
      satCast255 (round ((∑ k ∈ Finset.range amt,
        (sampleR f (i + (k : ℤ) - (amt / 2 : ℕ)) (j + (k : ℤ) - (amt / 2 : ℕ)) c : ℝ)) / amt))⟩

/-- VFXProcessor.apply_chromatic_aberration: np.roll shifts the blue
channel right by offset and the red channel left by offset (wraparound),
green unchanged. -/
def apply_chromatic_aberration (f : Frame) (offset : ℤ) : Frame :=
  ⟨f.h, f.w, fun i j c =>
    if c = 0 then f.pix i ((j - offset) % (f.w : ℤ)) 0
    else if c = 2 then f.pix i ((j + offset) % (f.w : ℤ)) 2
    else f.pix i j 1⟩

/-- VFXProcessor.apply_lens_distortion: radial coordinate remap followed by
cv2.remap with bilinear interpolation (out-of-bounds samples are the
BORDER_CONSTANT value 0; the map itself is pre-clipped to the frame). -/
noncomputable def apply_lens_distortion (f : Frame) (distortion : ℝ) : Frame :=
  ⟨f.h, f.w, fun y x c =>
    let xn := 2 * (x : ℝ) / (f.w : ℝ) - 1
    let yn := 2 * (y : ℝ) / (f.h : ℝ) - 1
    let factor := 1 + distortion * Real.sqrt (xn ^ 2 + yn ^ 2) ^ 2
    let xd := clip 0 ((f.w : ℝ) - 1) ((xn * factor * (1 / 2) + 1 / 2) * (f.w : ℝ))
    let yd := clip 0 ((f.h : ℝ) - 1) ((yn * factor * (1 / 2) + 1 / 2) * (f.h : ℝ))
    let fx := xd - ⌊xd⌋
    let fy := yd - ⌊yd⌋
    let P := fun (yy xx : ℤ) =>
      if 0 ≤ yy ∧ yy < f.h ∧ 0 ≤ xx ∧ xx < f.w then (f.pix yy xx c : ℝ) else 0
    satCast255 (round
      ((1 - fy) * ((1 - fx) * P ⌊yd⌋ ⌊xd⌋ + fx * P ⌊yd⌋ (⌊xd⌋ + 1)) +
       fy * ((1 - fx) * P (⌊yd⌋ + 1) ⌊xd⌋ + fx * P (⌊yd⌋ + 1) (⌊xd⌋ + 1))))⟩

/-- cv2.blur with a k×k box kernel (normalized averaging filter). -/
noncomputable def cv_blur (f : Frame) (k : ℕ) : Frame :=
  ⟨f.h, f.w, fun i j c =>
    satCast255 (round ((∑ a ∈ Finset.range k, ∑ b ∈ Finset.range k,
      (sampleR f (i + (a : ℤ) - (k / 2 : ℕ)) (j + (b : ℤ) - (k / 2 : ℕ)) c : ℝ))
      / ((k : ℝ) * (k : ℝ))))⟩

/-- The 'sharpen' kernel of process_video_with_effects:
[[-1,-1,-1],[-1,9,-1],[-1,-1,-1]] * intensity / 8 applied with filter2D. -/
noncomputable def apply_sharpen (f : Frame) (intensity : ℝ) : Frame :=
  ⟨f.h, f.w, fun i j c =>
    satCast255 (round (conv2 f c
      (fun a b => (if a = 0 ∧ b = 0 then 9 else -1) * intensity / 8) 1 i j))⟩

/-- The per-frame effect dispatch of process_video_with_effects.  A raising
filter propagates as an error: grain always calls apply_cinematic_grain
with the default grain_size = 2, whose even GaussianBlur kernel makes
OpenCV raise; blur raises when the computed kernel size
int(intensity*21)*2 + 1 is not positive. -/
noncomputable def apply_effect_to_frame (e : VisualEffect) (noise : ℤ → ℤ → ℝ)
    (f : Frame) : Except String Frame :=
  if e.effect_type = "color_grade" then
    Except.ok (apply_color_grading f e.intensity
      ((e.parameters.lookup "color_temp").getD "warm"))
  else if e.effect_type = "grain" then apply_cinematic_grain f e.intensity noise 2
  else if e.effect_type = "vignette" then Except.ok (apply_vignette f e.intensity)
  else if e.effect_type = "blur" then
    if 0 < pyTrunc (e.intensity * 21) * 2 + 1 then
      Except.ok (cv_blur f (pyTrunc (e.intensity * 21) * 2 + 1).toNat)
    else Except.error errBlurKsize
  else if e.effect_type = "sharpen" then Except.ok (apply_sharpen f e.intensity)
  else Except.ok f

/-- The inner effect loop for one frame: every registered effect whose
[start_frame, end_frame] range contains the frame index is attempted, in
registration order, each successful output fed to the next; a raised
filter error aborts the loop (the source's try block re-raises it). -/
noncomputable def processFrameEffects (effects : List VisualEffect)
    (noise : ℤ → ℤ → ℝ) (idx : ℕ) (f : Frame) : Except String Frame :=
  effects.foldlM (fun fr e =>
    if e.start_frame ≤ (idx : ℤ) ∧ (idx : ℤ) ≤ e.end_frame then
      apply_effect_to_frame e noise fr
    else Except.ok fr) f

/-- AudioVisualMerger.process_video_with_effects: an unopenable source is a
ValueError carrying the failing path; otherwise the decoded frames are run
through the effect loop in order, and the first filter error aborts the
whole pass (re-raised by the except block after releasing the capture). -/
noncomputable def process_video_with_effects (opened : Option (List Frame))
    (input_video : String) (effects : List VisualEffect) (noise : ℤ → ℤ → ℝ) :
    Except String (List Frame) :=
  match opened with
  | none => Except.error ("Cannot open video: " ++ input_video)
  | some frames =>
      frames.enum.mapM fun p => processFrameEffects effects noise p.1 p.2

/-! ## C6: effect dispatch -/

theorem foldlM_ite_filter {α β : Type} (p : β → Prop) [DecidablePred p]
    (g : α → β → Except String α) (l : List β) :
    ∀ a, l.foldlM (fun acc x => if p x then g acc x else Except.ok acc) a
      = (l.filter fun x => decide (p x)).foldlM g a := by
  induction l with
  | nil => intro a; rfl
  | cons x xs ih =>
      intro a
      by_cases h : p x
      · rw [List.filter_cons_of_pos (by simpa using h)]
        show (if p x then g a x else Except.ok a) >>= _ = g a x >>= _
        rw [if_pos h]
        cases hg : g a x with
        | error e => rfl
        | ok a' =>
            show xs.foldlM _ a' = _
            exact ih a'
      · rw [List.filter_cons_of_neg (by simpa using h)]
        show (if p x then g a x else Except.ok a) >>= _ = _
        rw [if_neg h]
        show xs.foldlM _ a = _
        exact ih a

/-- C6 counterexample: the claim promises that every registered in-range
effect is applied to each frame, but a registered grain effect (whose
dispatch always calls apply_cinematic_grain with the default even 2×2
GaussianBlur kernel) makes the source raise cv2.error instead: the whole
pass aborts with the error and no per-frame output is produced. -/
theorem c6_counterexample_grain_aborts_pass :
    process_video_with_effects (some [⟨1, 1, fun _ _ _ => 0⟩]) "v.mp4"
        [⟨"grain", 0, 0, 10, []⟩] (fun _ _ => 0)
      = Except.error errGaussKsize := by
  have hgrain : apply_cinematic_grain ⟨1, 1, fun _ _ _ => 0⟩ (0 : ℝ) (fun _ _ => 0) 2
      = Except.error errGaussKsize := by
    unfold apply_cinematic_grain
    rw [if_neg (by norm_num), if_neg (by decide)]
  have hdisp : apply_effect_to_frame ⟨"grain", 0, 0, 10, []⟩ (fun _ _ => 0)
      ⟨1, 1, fun _ _ _ => 0⟩ = Except.error errGaussKsize := by
    show apply_cinematic_grain ⟨1, 1, fun _ _ _ => 0⟩ (0 : ℝ) (fun _ _ => 0) 2 = _
    exact hgrain
  have hpf : processFrameEffects [⟨"grain", 0, 0, 10, []⟩] (fun _ _ => 0) 0
      ⟨1, 1, fun _ _ _ => 0⟩ = Except.error errGaussKsize := by
    show (if (0 : ℤ) ≤ ((0 : ℕ) : ℤ) ∧ ((0 : ℕ) : ℤ) ≤ 10 then
        apply_effect_to_frame ⟨"grain", 0, 0, 10, []⟩ (fun _ _ => 0) ⟨1, 1, fun _ _ _ => 0⟩
      else Except.ok ⟨1, 1, fun _ _ _ => 0⟩) >>=
        (fun fr => List.foldlM _ fr []) = _
    rw [if_pos (by norm_num), hdisp]
    rfl
  show List.mapM _ (List.enum [(⟨1, 1, fun _ _ _ => 0⟩ : Frame)]) = _
  show List.mapM.loop _ [((0 : ℕ), (⟨1, 1, fun _ _ _ => 0⟩ : Frame))] [] = _
  show (processFrameEffects [⟨"grain", 0, 0, 10, []⟩] (fun _ _ => 0) 0
      ⟨1, 1, fun _ _ _ => 0⟩) >>= _ = _
  rw [hpf]
  rfl

/-- C6 amended: for each frame index, exactly the registered effects whose
range satisfies start_frame ≤ index ≤ end_frame (inclusive at both ends)
are attempted, in registration order, each successful filter's output fed
to the next, and the whole pass runs this loop over the decoded frames in
order — but a raising filter aborts the pass with its error, and every
dispatched grain effect raises (np.random.normal for negative intensity,
otherwise GaussianBlur's even default 2×2 kernel). -/
theorem c6_effect_ranges_amended (effects : List VisualEffect)
    (noise : ℤ → ℤ → ℝ) (idx : ℕ) (f : Frame) (frames : List Frame)
    (path : String) :
    processFrameEffects effects noise idx f
      = (effects.filter fun e =>
          decide (e.start_frame ≤ (idx : ℤ)) && decide ((idx : ℤ) ≤ e.end_frame)).foldlM
          (fun fr e => apply_effect_to_frame e noise fr) f ∧
    process_video_with_effects (some frames) path effects noise
      = frames.enum.mapM (fun p => processFrameEffects effects noise p.1 p.2) ∧
    ∀ (int : ℝ) (sf ef : ℤ) (params : List (String × String)) (fr : Frame),
      apply_effect_to_frame ⟨"grain", int, sf, ef, params⟩ noise fr
        = Except.error (if int * 20 < 0 then errNormalScale else errGaussKsize) := by
  refine ⟨?_, rfl, ?_⟩
  · unfold processFrameEffects
    rw [foldlM_ite_filter (fun e : VisualEffect =>
      e.start_frame ≤ (idx : ℤ) ∧ (idx : ℤ) ≤ e.end_frame)
      (fun fr e => apply_effect_to_frame e noise fr) effects f]
    congr 1
    apply List.filter_congr
    intro e _
    by_cases h1 : e.start_frame ≤ (idx : ℤ) <;> by_cases h2 : (idx : ℤ) ≤ e.end_frame <;>
      simp [h1, h2]
  · intro int sf ef params fr
    show apply_cinematic_grain fr int noise 2 = _
    unfold apply_cinematic_grain
    by_cases h : int * 20 < 0
    · rw [if_pos h, if_pos h]
    · rw [if_neg h, if_neg (by decide), if_neg h]

/-! ## C5: every filter clamps to [0,255] -/

theorem clip255_bounds (x : ℝ) : 0 ≤ clip 0 255 x ∧ clip 0 255 x ≤ 255 :=
  ⟨le_min (by norm_num) (le_max_left 0 x), min_le_left _ _⟩

theorem toUint8_clip_bounds (x : ℝ) :
    0 ≤ toUint8 (clip 0 255 x) ∧ toUint8 (clip 0 255 x) ≤ 255 ∧
    toUint8 (clip 0 255 x) = pyTrunc (clip 0 255 x) := by
  obtain ⟨h0, h1⟩ := clip255_bounds x
  have htr : pyTrunc (clip 0 255 x) = ⌊clip 0 255 x⌋ := if_neg (not_lt.mpr h0)
  have hf0 : (0 : ℤ) ≤ ⌊clip 0 255 x⌋ := by
    exact_mod_cast Int.le_floor.mpr (by exact_mod_cast h0)
  have hf1 : ⌊clip 0 255 x⌋ ≤ 255 := by
    have := Int.floor_le_floor (α := ℝ) h1
    simpa using this
  have hmod : toUint8 (clip 0 255 x) = pyTrunc (clip 0 255 x) := by
    unfold toUint8
    rw [htr]
    exact Int.emod_eq_of_lt hf0 (by omega)
  refine ⟨?_, ?_, hmod⟩
  · rw [hmod, htr]; exact hf0
  · rw [hmod, htr]; exact hf1

theorem satCast255_bounds (z : ℤ) : 0 ≤ satCast255 z ∧ satCast255 z ≤ 255 :=
  ⟨le_max_left _ _, max_le (by norm_num) (min_le_left _ _)⟩

/-- C5 counterexample: three of the claim's filters raise instead of
clamping: film grain with a negative intensity (np.random.normal rejects a
negative scale), cinematic grain at any intensity with its default 2×2
GaussianBlur kernel (OpenCV requires an odd kernel), and edge enhance on a
non-square frame (the np.newaxis broadcast is rejected by numpy) — so no
clamped output exists for these inputs, which the claim quantifies over. -/
theorem c5_counterexample_filters_raise :
    apply_film_grain ⟨1, 1, fun _ _ _ => 0⟩ (-1) false (fun _ _ _ => 0)
      = Except.error errNormalScale ∧
    apply_cinematic_grain ⟨1, 1, fun _ _ _ => 0⟩ 0 (fun _ _ => 0) 2
      = Except.error errGaussKsize ∧
    apply_edge_enhance ⟨2, 3, fun _ _ _ => 0⟩ 1 = Except.error errBroadcast := by
  refine ⟨?_, ?_, ?_⟩
  · unfold apply_film_grain
    rw [if_pos (by norm_num)]
  · unfold apply_cinematic_grain
    rw [if_neg (by norm_num), if_neg (by decide)]
  · unfold apply_edge_enhance
    rw [if_neg (by decide)]

/-- C5 amended: each filter that completes produces pixel channel values
within [0,255] by clamping (np.clip before the uint8 conversion, which is
then plain truncation with no wraparound) or OpenCV saturation, and the
channel roll permutes in-range pixels — this is unconditional for color
grading, vignette, unsharp mask, motion blur, chromatic aberration and
lens distortion, and holds for film grain with nonnegative intensity, for
cinematic grain with nonnegative intensity and an odd kernel size, and for
edge enhance on broadcastable (e.g. square) frames; but film grain with
negative intensity and edge enhance on non-square frames raise instead of
clamping, and cinematic grain with its default 2×2 kernel always raises. -/
theorem c5_filters_clamp_amended (f f2 : Frame)
    (intensity gi gi2 int2 int3 amount strength dist : ℝ)
    (temp dir : String) (noise : ℤ → ℤ → ℝ) (noise3 : ℤ → ℤ → Fin 3 → ℝ)
    (gs radius amt : ℕ) (gc : Bool) (threshold offset : ℤ)
    (hin : FrameInRange f)
    (hgi : 0 ≤ gi) (hint : 0 ≤ int2) (hgs : gs % 2 = 1) (hsq : f.h = f.w)
    (hneg : gi2 < 0) (hnsq : ¬(f2.h = f2.w ∨ f2.h = 1 ∨ f2.w = 1)) :
    FrameInRange (apply_color_grading f intensity temp) ∧
    FrameInRange (apply_vignette f intensity) ∧
    FrameInRange (apply_unsharp_mask f amount radius threshold) ∧
    FrameInRange (apply_motion_blur f dir amt) ∧
    FrameInRange (apply_chromatic_aberration f offset) ∧
    FrameInRange (apply_lens_distortion f dist) ∧
    apply_film_grain f gi gc noise3 = Except.ok (apply_film_grain_frame f gi gc noise3) ∧
    FrameInRange (apply_film_grain_frame f gi gc noise3) ∧
    apply_cinematic_grain f int2 noise gs
      = Except.ok (apply_cinematic_grain_frame f int2 noise gs) ∧
    FrameInRange (apply_cinematic_grain_frame f int2 noise gs) ∧
    apply_edge_enhance f strength = Except.ok (apply_edge_enhance_arr f strength) ∧
    (∀ (a b c : ℤ) (d : Fin 3), 0 ≤ apply_edge_enhance_arr f strength a b c d ∧
      apply_edge_enhance_arr f strength a b c d ≤ 255) ∧
    apply_film_grain f gi2 gc noise3 = Except.error errNormalScale ∧
    apply_cinematic_grain f int3 noise 2
      = Except.error (if int3 * 20 < 0 then errNormalScale else errGaussKsize) ∧
    apply_edge_enhance f2 strength = Except.error errBroadcast := by
  refine ⟨?_, ?_, ?_, ?_, ?_, ?_, ?_, ?_, ?_, ?_, ?_, ?_, ?_, ?_, ?_⟩
  · intro i j c _ _ _ _
    exact ⟨(toUint8_clip_bounds _).1, (toUint8_clip_bounds _).2.1⟩
  · intro i j c _ _ _ _
    exact ⟨(toUint8_clip_bounds _).1, (toUint8_clip_bounds _).2.1⟩
  · intro i j c _ _ _ _
    exact ⟨(toUint8_clip_bounds _).1, (toUint8_clip_bounds _).2.1⟩
  · intro i j c _ _ _ _
    unfold apply_motion_blur
    dsimp only
    split_ifs <;> exact satCast255_bounds _
  · intro i j c h0 h1 h2 h3
    have hw : (0 : ℤ) < (f.w : ℤ) := lt_of_le_of_lt h2 h3
    unfold apply_chromatic_aberration
    dsimp only
    split_ifs
    · exact hin i ((j - offset) % (f.w : ℤ)) 0 h0 h1
        (Int.emod_nonneg _ (ne_of_gt hw)) (Int.emod_lt_of_pos _ hw)
    · exact hin i ((j + offset) % (f.w : ℤ)) 2 h0 h1
        (Int.emod_nonneg _ (ne_of_gt hw)) (Int.emod_lt_of_pos _ hw)
    · exact hin i j 1 h0 h1 h2 h3
  · intro i j c _ _ _ _
    exact satCast255_bounds _
  · unfold apply_film_grain
    rw [if_neg (not_lt.mpr (mul_nonneg hgi (by norm_num)))]
  · intro i j c _ _ _ _
    exact ⟨(toUint8_clip_bounds _).1, (toUint8_clip_bounds _).2.1⟩
  · unfold apply_cinematic_grain
    rw [if_neg (not_lt.mpr (mul_nonneg hint (by norm_num))), if_pos hgs]
  · intro i j c _ _ _ _
    exact ⟨(toUint8_clip_bounds _).1, (toUint8_clip_bounds _).2.1⟩
  · unfold apply_edge_enhance
    rw [if_pos (Or.inl hsq)]
  · intro a b c d
    exact ⟨(toUint8_clip_bounds _).1, (toUint8_clip_bounds _).2.1⟩
  · unfold apply_film_grain
    rw [if_pos (mul_neg_of_neg_of_pos hneg (by norm_num))]
  · unfold apply_cinematic_grain
    by_cases h : int3 * 20 < 0
    · rw [if_pos h, if_pos h]
    · rw [if_neg h, if_neg (by decide), if_neg h]
  · unfold apply_edge_enhance
    rw [if_neg hnsq]

/-- C5 amended witness: the clamping facts and the three raising cases at
concrete frames and parameters. -/
theorem c5_filters_clamp_amended_witness :
    FrameInRange (apply_color_grading ⟨1, 1, fun _ _ _ => 0⟩ 7 "warm") ∧
    FrameInRange (apply_vignette ⟨1, 1, fun _ _ _ => 0⟩ 7) ∧
    FrameInRange (apply_unsharp_mask ⟨1, 1, fun _ _ _ => 0⟩ 7 1 0) ∧
    FrameInRange (apply_motion_blur ⟨1, 1, fun _ _ _ => 0⟩ "horizontal" 15) ∧
    FrameInRange (apply_chromatic_aberration ⟨1, 1, fun _ _ _ => 0⟩ 3) ∧
    FrameInRange (apply_lens_distortion ⟨1, 1, fun _ _ _ => 0⟩ 7) ∧
    apply_film_grain ⟨1, 1, fun _ _ _ => 0⟩ 0 false (fun _ _ _ => 1)
      = Except.ok (apply_film_grain_frame ⟨1, 1, fun _ _ _ => 0⟩ 0 false (fun _ _ _ => 1)) ∧
    FrameInRange (apply_film_grain_frame ⟨1, 1, fun _ _ _ => 0⟩ 0 false (fun _ _ _ => 1)) ∧
    apply_cinematic_grain ⟨1, 1, fun _ _ _ => 0⟩ 0 (fun _ _ => 1) 3
      = Except.ok (apply_cinematic_grain_frame ⟨1, 1, fun _ _ _ => 0⟩ 0 (fun _ _ => 1) 3) ∧
    FrameInRange (apply_cinematic_grain_frame ⟨1, 1, fun _ _ _ => 0⟩ 0 (fun _ _ => 1) 3) ∧
    apply_edge_enhance ⟨1, 1, fun _ _ _ => 0⟩ 7
      = Except.ok (apply_edge_enhance_arr ⟨1, 1, fun _ _ _ => 0⟩ 7) ∧
    (∀ (a b c : ℤ) (d : Fin 3),
      0 ≤ apply_edge_enhance_arr ⟨1, 1, fun _ _ _ => 0⟩ 7 a b c d ∧
      apply_edge_enhance_arr ⟨1, 1, fun _ _ _ => 0⟩ 7 a b c d ≤ 255) ∧
    apply_film_grain ⟨1, 1, fun _ _ _ => 0⟩ (-2) false (fun _ _ _ => 1)
      = Except.error errNormalScale ∧
    apply_cinematic_grain ⟨1, 1, fun _ _ _ => 0⟩ 5 (fun _ _ => 1) 2
      = Except.error (if (5 : ℝ) * 20 < 0 then errNormalScale else errGaussKsize) ∧
    apply_edge_enhance ⟨2, 3, fun _ _ _ => 0⟩ 7 = Except.error errBroadcast :=
  c5_filters_clamp_amended ⟨1, 1, fun _ _ _ => 0⟩ ⟨2, 3, fun _ _ _ => 0⟩
    7 0 (-2) 0 5 7 7 7 "warm" "horizontal" (fun _ _ => 1) (fun _ _ _ => 1) 3 1 15 false 0 3
    (fun _ _ _ _ _ _ _ => ⟨le_refl 0, by norm_num⟩)
    (le_refl 0) (le_refl 0) (by decide) rfl (by norm_num) (by decide)

/-! ## Lip-sync engine (LipSyncEngine)

detect_face_landmarks builds, from the external MediaPipe detector, a dict
with the upper-lip and lower-lip subsets of 10 pixel-space points each
(fixed landmark indices); those two subsets are all that
calculate_mouth_openness and calculate_mouth_shape read.  (The dict's raw
and face_landmarks entries, and extract_mouth_region, are used only for
drawing/cropping and are not read by any analyzed function.) -/

structure Landmarks where
  upper_lip : Fin 10 → ℝ × ℝ
  lower_lip : Fin 10 → ℝ × ℝ

/-- np.mean(points, axis=0): the centroid of a 10-point subset. -/
noncomputable def centroid (pts : Fin 10 → ℝ × ℝ) : ℝ × ℝ :=
  ((∑ k, (pts k).1) / 10, (∑ k, (pts k).2) / 10)

/-- LipSyncEngine.calculate_mouth_openness: 0.0 without landmarks, else the
distance between the lip centroids over 50, capped at 1.0. -/
noncomputable def calculate_mouth_openness (lm : Option Landmarks) : ℝ :=
  match lm with
  | none => 0
  | some l =>
      let u := centroid l.upper_lip
      let lo := centroid l.lower_lip
      min 1 (Real.sqrt ((lo.1 - u.1) ^ 2 + (lo.2 - u.2) ^ 2) / 50)

/-- max(upper_lip[:, 0]) - min(upper_lip[:, 0]): horizontal spread. -/
noncomputable def upperLipWidth (l : Landmarks) : ℝ :=
  (Finset.univ.sup' Finset.univ_nonempty fun k => (l.upper_lip k).1) -
  (Finset.univ.inf' Finset.univ_nonempty fun k => (l.upper_lip k).1)

/-- LipSyncEngine.calculate_mouth_shape viseme classification. -/
noncomputable def calculate_mouth_shape (lm : Option Landmarks) : String :=
  match lm with
  | none => "closed"
  | some l =>
      let openness := calculate_mouth_openness (some l)
      let width := upperLipWidth l
      if openness < 15 / 100 then "closed"
      else if openness < 2 / 5 then (if width > 30 then "spread" else "rounded")
      else "open"

/-! ## C8 and C9 -/

/-- C8: calculate_mouth_openness returns exactly 0.0 for absent landmarks;
otherwise it is the Euclidean distance between the upper-lip and lower-lip
centroids divided by 50 and clamped to [0,1] (the clamp from below is
automatic since a distance is nonnegative); in all cases the result lies
in [0,1]. -/
theorem c8_mouth_openness_range (l : Landmarks) (olm : Option Landmarks) :
    calculate_mouth_openness none = 0 ∧
    calculate_mouth_openness (some l)
      = min 1 (Real.sqrt (((centroid l.lower_lip).1 - (centroid l.upper_lip).1) ^ 2 +
          ((centroid l.lower_lip).2 - (centroid l.upper_lip).2) ^ 2) / 50) ∧
    calculate_mouth_openness (some l)
      = clip 0 1 (Real.sqrt (((centroid l.lower_lip).1 - (centroid l.upper_lip).1) ^ 2 +
          ((centroid l.lower_lip).2 - (centroid l.upper_lip).2) ^ 2) / 50) ∧
    0 ≤ calculate_mouth_openness olm ∧ calculate_mouth_openness olm ≤ 1 := by
  have hnn : ∀ l' : Landmarks,
      (0 : ℝ) ≤ Real.sqrt (((centroid l'.lower_lip).1 - (centroid l'.upper_lip).1) ^ 2 +
        ((centroid l'.lower_lip).2 - (centroid l'.upper_lip).2) ^ 2) / 50 := by
    intro l'
    positivity
  refine ⟨rfl, ?_, ?_, ?_, ?_⟩
  · rfl
  · unfold clip
    rw [max_eq_right (hnn l)]
    rfl
  · cases olm with
    | none => exact le_refl 0
    | some l' => exact le_min zero_le_one (hnn l')
  · cases olm with
    | none => exact zero_le_one
    | some l' => exact min_le_left _ _

/-- C9: calculate_mouth_shape factors through mouth openness and upper-lip
horizontal spread (so identical landmark measurements give identical
classifications), and equals the claim's classification: closed below
openness 0.15, open at or above 0.4, and in the mid band spread exactly
when the upper-lip spread exceeds 30 pixels, rounded otherwise. -/
theorem c9_mouth_shape_classification (l l2 : Landmarks)
    (h1 : calculate_mouth_openness (some l) = calculate_mouth_openness (some l2))
    (h2 : upperLipWidth l = upperLipWidth l2) :
    calculate_mouth_shape (some l) = calculate_mouth_shape (some l2) ∧
    calculate_mouth_shape (some l)
      = (if calculate_mouth_openness (some l) < 15 / 100 then "closed"
         else if 2 / 5 ≤ calculate_mouth_openness (some l) then "open"
         else if 30 < upperLipWidth l then "spread" else "rounded") := by
  constructor
  · simp only [calculate_mouth_shape, h1, h2]
  · simp only [calculate_mouth_shape]
    by_cases hc : calculate_mouth_openness (some l) < 15 / 100
    · simp [hc]
    · by_cases ho : calculate_mouth_openness (some l) < 2 / 5
      · rw [if_neg hc, if_pos ho, if_neg hc, if_neg (not_le.mpr ho)]
      · rw [if_neg hc, if_neg ho, if_neg hc, if_pos (not_lt.mp ho)]

/-- C9 witness: the classification at a concrete landmark set. -/
theorem c9_mouth_shape_classification_witness :
    calculate_mouth_shape (some ⟨fun _ => (0, 0), fun _ => (0, 0)⟩)
      = calculate_mouth_shape (some ⟨fun _ => (0, 0), fun _ => (0, 0)⟩) ∧
    calculate_mouth_shape (some ⟨fun _ => (0, 0), fun _ => (0, 0)⟩)
      = (if calculate_mouth_openness (some ⟨fun _ => (0, 0), fun _ => (0, 0)⟩) < 15 / 100
         then "closed"
         else if 2 / 5 ≤ calculate_mouth_openness (some ⟨fun _ => (0, 0), fun _ => (0, 0)⟩)
         then "open"
         else if 30 < upperLipWidth ⟨fun _ => (0, 0), fun _ => (0, 0)⟩ then "spread"
         else "rounded") :=
  c9_mouth_shape_classification ⟨fun _ => (0, 0), fun _ => (0, 0)⟩
    ⟨fun _ => (0, 0), fun _ => (0, 0)⟩ rfl rfl

/-! ## C7: unopenable video sources -/

/-- One entry of the frame_data list of process_video_for_lipsync.  (The
mouth_region_size entry, produced by the drawing/cropping helper
extract_mouth_region, is not modelled.) -/
structure FrameData where
  frame_id : ℕ
  timestamp : ℝ
  mouth_openness : ℝ
  mouth_shape : String

/-- LipSyncEngine.process_video_for_lipsync: when cv2.VideoCapture cannot
open the source the function logs and returns the empty list (it does not
raise); otherwise frames with a detected face contribute one FrameData
entry each. -/
noncomputable def process_video_for_lipsync (opened : Option (List Frame))
    (detect : Frame → Option Landmarks) (fps : ℝ) : List FrameData :=
  match opened with
  | none => []
  | some frames =>
      frames.enum.filterMap fun p =>
        (detect p.2).map fun lm =>
          ⟨p.1, (p.1 : ℝ) / fps, calculate_mouth_openness (some lm),
           calculate_mouth_shape (some lm)⟩

/-- C7 counterexample: process_video_for_lipsync does not surface an
unopenable source to the caller: it returns [], exactly the value returned
for a successfully opened video in which no frame has a detectable face —
the failure is indistinguishable from a face-free success. -/
theorem c7_counterexample_lipsync_not_surfaced :
    process_video_for_lipsync none (fun _ => none) 30 = [] ∧
    process_video_for_lipsync none (fun _ => none) 30
      = process_video_for_lipsync (some [⟨1, 1, fun _ _ _ => 0⟩]) (fun _ => none) 30 :=
  ⟨rfl, rfl⟩

/-- C7 amended: an unopenable source is fatal and surfaced with the failing
path by process_video_with_effects (a ValueError, no partial output), but
process_video_for_lipsync only logs it and returns the empty list, which is
indistinguishable from a successfully opened video with no detected faces. -/
theorem c7_unopenable_video_amended (path : String) (effects : List VisualEffect)
    (noise : ℤ → ℤ → ℝ) (detect : Frame → Option Landmarks) (fps : ℝ) :
    process_video_with_effects none path effects noise
      = Except.error ("Cannot open video: " ++ path) ∧
    process_video_for_lipsync none detect fps = [] :=
  ⟨rfl, rfl⟩

/-! ## Sector evaluation of hsv2bgr (for the cinematic round trip) -/

theorem hsv2bgr_sector0 (hh s v : ℝ) (h0 : 0 ≤ hh / 60) (h1 : hh / 60 < 1) :
    hsv2bgr hh s v = (v * (1 - s), v * (1 - s * (1 - hh / 60)), v) := by
  have hfl : ⌊hh / 60⌋ = 0 := Int.floor_eq_zero_iff.mpr ⟨h0, h1⟩
  simp only [hsv2bgr, hfl]
  norm_num

theorem hsv2bgr_sector1 (hh s v : ℝ) (h0 : 1 ≤ hh / 60) (h1 : hh / 60 < 2) :
    hsv2bgr hh s v = (v * (1 - s), v, v * (1 - s * (hh / 60 - 1))) := by
  have hfl : ⌊hh / 60⌋ = 1 := by
    rw [Int.floor_eq_iff]
    constructor <;> [exact_mod_cast h0; (push_cast; linarith)]
  simp only [hsv2bgr, hfl]
  norm_num

theorem hsv2bgr_sector2 (hh s v : ℝ) (h0 : 2 ≤ hh / 60) (h1 : hh / 60 < 3) :
    hsv2bgr hh s v = (v * (1 - s * (1 - (hh / 60 - 2))), v, v * (1 - s)) := by
  have hfl : ⌊hh / 60⌋ = 2 := by
    rw [Int.floor_eq_iff]
    constructor <;> [exact_mod_cast h0; (push_cast; linarith)]
  simp only [hsv2bgr, hfl]
  norm_num

theorem hsv2bgr_sector3 (hh s v : ℝ) (h0 : 3 ≤ hh / 60) (h1 : hh / 60 < 4) :
    hsv2bgr hh s v = (v, v * (1 - s * (hh / 60 - 3)), v * (1 - s)) := by
  have hfl : ⌊hh / 60⌋ = 3 := by
    rw [Int.floor_eq_iff]
    constructor <;> [exact_mod_cast h0; (push_cast; linarith)]
  simp only [hsv2bgr, hfl]
  norm_num

theorem hsv2bgr_sector4 (hh s v : ℝ) (h0 : 4 ≤ hh / 60) (h1 : hh / 60 < 5) :
    hsv2bgr hh s v = (v, v * (1 - s), v * (1 - s * (1 - (hh / 60 - 4)))) := by
  have hfl : ⌊hh / 60⌋ = 4 := by
    rw [Int.floor_eq_iff]
    constructor <;> [exact_mod_cast h0; (push_cast; linarith)]
  simp only [hsv2bgr, hfl]
  norm_num

theorem hsv2bgr_sector5 (hh s v : ℝ) (h0 : 5 ≤ hh / 60) (h1 : hh / 60 < 6) :
    hsv2bgr hh s v = (v * (1 - s * (hh / 60 - 5)), v * (1 - s), v) := by
  have hfl : ⌊hh / 60⌋ = 5 := by
    rw [Int.floor_eq_iff]
    constructor <;> [exact_mod_cast h0; (push_cast; linarith)]
  simp only [hsv2bgr, hfl]
  norm_num

/-- The HSV round trip is the identity on nonnegative channels: converting
BGR to HSV and back recovers the original pixel.  This is what makes the
cinematic color grade the identity at zero intensity. -/
theorem hsv_bgr_roundtrip (b g r : ℝ) (hb : 0 ≤ b) (hg : 0 ≤ g) (hr : 0 ≤ r) :
    hsv2bgr (bgr2hsv b g r).1 (bgr2hsv b g r).2.1 (bgr2hsv b g r).2.2 = (b, g, r) := by
  have hbv : b ≤ max r (max g b) := le_max_of_le_right (le_max_right g b)
  have hgv : g ≤ max r (max g b) := le_max_of_le_right (le_max_left g b)
  have hrv : r ≤ max r (max g b) := le_max_left _ _
  have hmr : min r (min g b) ≤ r := min_le_left _ _
  have hmg : min r (min g b) ≤ g := le_trans (min_le_right _ _) (min_le_left _ _)
  have hmb : min r (min g b) ≤ b := le_trans (min_le_right _ _) (min_le_right _ _)
  have hm0 : 0 ≤ min r (min g b) := le_min hr (le_min hg hb)
  by_cases hd : max r (max g b) = min r (min g b)
  · -- gray pixel: all three channels are equal, H = S = 0, result (v,v,v)
    have hrb : r = b :=
      le_antisymm (le_trans (le_of_le_of_eq hrv hd) hmb) (le_trans (le_of_le_of_eq hbv hd) hmr)
    have hgb : g = b :=
      le_antisymm (le_trans (le_of_le_of_eq hgv hd) hmb) (le_trans (le_of_le_of_eq hbv hd) hmg)
    rw [hrb, hgb]
    have hbgr : bgr2hsv b b b = (0, 0, b) := by
      simp [bgr2hsv, max_self, min_self, sub_self]
    rw [hbgr, hsv2bgr_sector0 0 0 b (by norm_num) (by norm_num)]
    norm_num
  · have hmv : min r (min g b) < max r (max g b) :=
      lt_of_le_of_ne (le_trans hmb hbv) fun h => hd h.symm
    have hv0 : 0 < max r (max g b) := lt_of_le_of_lt hm0 hmv
    by_cases hvr : max r (max g b) = r
    · -- V = R
      have hrpos : 0 < r := lt_of_lt_of_eq hv0 hvr
      have hgr' : g ≤ r := le_of_le_of_eq hgv hvr
      have hbr' : b ≤ r := le_of_le_of_eq hbv hvr
      by_cases hgb : b ≤ g
      · -- min = B, hue in [0, 60]
        have hmn : min r (min g b) = b := by
          rw [min_eq_right hgb, min_eq_right (le_trans hgb hgr')]
        have hdpos : 0 < r - b := by
          have := hmv; rw [hvr, hmn] at this; linarith
        have hhnn : 0 ≤ 60 * (g - b) / (r - b) :=
          div_nonneg (by linarith) (by linarith)
        have hbgr : bgr2hsv b g r = (60 * (g - b) / (r - b), (r - b) / r, r) := by
          simp only [bgr2hsv, hvr, hmn, eq_self_iff_true, if_true]
          rw [if_neg (not_lt.mpr hhnn), if_neg (ne_of_gt hrpos)]
        rw [hbgr]
        by_cases hgr2 : g = r
        · -- tie G = R: hue is exactly 60, sector 1 with f = 0
          have h60 : 60 * (g - b) / (r - b) = 60 := by
            rw [hgr2, mul_div_assoc, div_self (ne_of_gt hdpos), mul_one]
          dsimp only
          rw [h60, hsv2bgr_sector1 60 _ _ (by norm_num) (by norm_num)]
          rw [Prod.mk.injEq, Prod.mk.injEq]
          refine ⟨?_, hgr2.symm, ?_⟩
          · field_simp
          · norm_num
        · have hglt : g < r := lt_of_le_of_ne hgr' hgr2
          have hfrac : 60 * (g - b) / (r - b) / 60 = (g - b) / (r - b) := by ring
          dsimp only
          rw [hsv2bgr_sector0 _ _ _
            (by rw [hfrac]; exact div_nonneg (by linarith) (by linarith))
            (by rw [hfrac]; exact (div_lt_one hdpos).mpr (by linarith))]
          rw [hfrac, Prod.mk.injEq, Prod.mk.injEq]
          refine ⟨?_, ?_, rfl⟩
          · field_simp
          · field_simp
            ring
      · -- B > G: min = G, hue in [300, 360)
        push_neg at hgb
        have hmn : min r (min g b) = g := by
          rw [min_eq_left (le_of_lt hgb), min_eq_right hgr']
        have hdpos : 0 < r - g := by
          have := hmv; rw [hvr, hmn] at this; linarith
        have hhneg : 60 * (g - b) / (r - g) < 0 :=
          div_neg_of_neg_of_pos (by linarith) (by linarith)
        have hbgr : bgr2hsv b g r
            = (60 * (g - b) / (r - g) + 360, (r - g) / r, r) := by
          simp only [bgr2hsv, hvr, hmn, eq_self_iff_true, if_true]
          rw [if_pos hhneg, if_neg (ne_of_gt hrpos)]
        rw [hbgr]
        have hfrac : (60 * (g - b) / (r - g) + 360) / 60 = (g - b) / (r - g) + 6 := by
          ring
        dsimp only
        rw [hsv2bgr_sector5 _ _ _
          (by rw [hfrac]
              have : -1 ≤ (g - b) / (r - g) := by
                rw [le_div_iff hdpos]
                linarith
              linarith)
          (by rw [hfrac]
              have : (g - b) / (r - g) < 0 :=
                div_neg_of_neg_of_pos (by linarith) (by linarith)
              linarith)]
        rw [hfrac, Prod.mk.injEq, Prod.mk.injEq]
        refine ⟨?_, ?_, rfl⟩
        · field_simp
          ring
        · field_simp
    · by_cases hvg : max r (max g b) = g
      · -- V = G (and R < G)
        have hgpos : 0 < g := lt_of_lt_of_eq hv0 hvg
        have hgrne : ¬g = r := fun h => hvr (hvg.trans h)
        have hbg' : b ≤ g := le_of_le_of_eq hbv hvg
        have hrg : r < g := by
          rcases lt_or_eq_of_le (le_of_le_of_eq hrv hvg) with h | h
          · exact h
          · exact absurd (hvg.trans h.symm) hvr
        by_cases hbr : r ≤ b
        · -- min = R, hue in [120, 180]
          have hmn : min r (min g b) = r := by
            rw [min_eq_left (le_min (le_of_lt hrg) hbr)]
          have hdpos : 0 < g - r := by linarith
          have hhval : 0 ≤ 120 + 60 * (b - r) / (g - r) := by
            have : 0 ≤ 60 * (b - r) / (g - r) := div_nonneg (by linarith) (by linarith)
            linarith
          have hbgr : bgr2hsv b g r
              = (120 + 60 * (b - r) / (g - r), (g - r) / g, g) := by
            simp only [bgr2hsv, hvg, hmn, eq_self_iff_true, if_true]
            rw [if_neg hgrne, if_neg (not_lt.mpr hhval), if_neg (ne_of_gt hgpos)]
          rw [hbgr]
          by_cases hbg2 : b = g
          · -- tie B = G: hue is exactly 180, sector 3 with f = 0
            have h180 : 120 + 60 * (b - r) / (g - r) = 180 := by
              rw [hbg2, mul_div_assoc, div_self (ne_of_gt hdpos)]
              norm_num
            dsimp only
            rw [h180, hsv2bgr_sector3 180 _ _ (by norm_num) (by norm_num)]
            rw [Prod.mk.injEq, Prod.mk.injEq]
            refine ⟨hbg2.symm, ?_, ?_⟩
            · norm_num
            · field_simp
          · have hblt : b < g := lt_of_le_of_ne hbg' hbg2
            have hfrac : (120 + 60 * (b - r) / (g - r)) / 60 = (b - r) / (g - r) + 2 := by
              ring
            dsimp only
            rw [hsv2bgr_sector2 _ _ _
              (by rw [hfrac]
                  have : 0 ≤ (b - r) / (g - r) := div_nonneg (by linarith) (by linarith)
                  linarith)
              (by rw [hfrac]
                  have : (b - r) / (g - r) < 1 := (div_lt_one hdpos).mpr (by linarith)
                  linarith)]
            rw [hfrac, Prod.mk.injEq, Prod.mk.injEq]
            refine ⟨?_, rfl, ?_⟩
            · field_simp
              ring
            · field_simp
        · -- B < R < G: min = B, hue in (60, 120)
          push_neg at hbr
          have hmn : min r (min g b) = b := by
            rw [min_eq_right hbg', min_eq_right (le_of_lt hbr)]
          have hdpos : 0 < g - b := by linarith
          have hhval : 0 ≤ 120 + 60 * (b - r) / (g - b) := by
            have h1 : -1 ≤ (b - r) / (g - b) := by
              rw [le_div_iff hdpos]
              linarith
            have h2 : 60 * (b - r) / (g - b) = 60 * ((b - r) / (g - b)) := by ring
            rw [h2]
            linarith
          have hbgr : bgr2hsv b g r
              = (120 + 60 * (b - r) / (g - b), (g - b) / g, g) := by
            simp only [bgr2hsv, hvg, hmn, eq_self_iff_true, if_true]
            rw [if_neg hgrne, if_neg (not_lt.mpr hhval), if_neg (ne_of_gt hgpos)]
          rw [hbgr]
          have hfrac : (120 + 60 * (b - r) / (g - b)) / 60 = (b - r) / (g - b) + 2 := by
            ring
          dsimp only
          rw [hsv2bgr_sector1 _ _ _
            (by rw [hfrac]
                have : -1 ≤ (b - r) / (g - b) := by
                  rw [le_div_iff hdpos]
                  linarith
                linarith)
            (by rw [hfrac]
                have : (b - r) / (g - b) < 0 :=
                  div_neg_of_neg_of_pos (by linarith) (by linarith)
                linarith)]
          rw [hfrac, Prod.mk.injEq, Prod.mk.injEq]
          refine ⟨?_, rfl, ?_⟩
          · field_simp
          · field_simp
            ring
      · -- V = B (and R < B, G < B)
        have hvb : max r (max g b) = b := by
          rcases max_choice r (max g b) with h | h
          · exact absurd h hvr
          · rcases max_choice g b with h' | h'
            · exact absurd (h.trans h') hvg
            · exact h.trans h'
        have hbpos : 0 < b := lt_of_lt_of_eq hv0 hvb
        have hbrne : ¬b = r := fun h => hvr (hvb.trans h)
        have hbgne : ¬b = g := fun h => hvg (hvb.trans h)
        have hrb : r < b := by
          rcases lt_or_eq_of_le (le_of_le_of_eq hrv hvb) with h | h
          · exact h
          · exact absurd (hvb.trans h.symm) hvr
        have hgb : g < b := by
          rcases lt_or_eq_of_le (le_of_le_of_eq hgv hvb) with h | h
          · exact h
          · exact absurd (hvb.trans h.symm) hvg
        by_cases hgr : g ≤ r
        · -- min = G, hue in [240, 300)
          have hmn : min r (min g b) = g := by
            rw [min_eq_left (le_of_lt hgb), min_eq_right hgr]
          have hdpos : 0 < b - g := by linarith
          have hhval : 0 ≤ 240 + 60 * (r - g) / (b - g) := by
            have : 0 ≤ 60 * (r - g) / (b - g) := div_nonneg (by linarith) (by linarith)
            linarith
          have hbgr : bgr2hsv b g r
              = (240 + 60 * (r - g) / (b - g), (b - g) / b, b) := by
            simp only [bgr2hsv, hvb, hmn]
            rw [if_neg hbrne, if_neg hbgne, if_neg (not_lt.mpr hhval), if_neg (ne_of_gt hbpos)]
          rw [hbgr]
          have hfrac : (240 + 60 * (r - g) / (b - g)) / 60 = (r - g) / (b - g) + 4 := by
            ring
          dsimp only
          rw [hsv2bgr_sector4 _ _ _
            (by rw [hfrac]
                have : 0 ≤ (r - g) / (b - g) := div_nonneg (by linarith) (by linarith)
                linarith)
            (by rw [hfrac]
                have : (r - g) / (b - g) < 1 := (div_lt_one hdpos).mpr (by linarith)
                linarith)]
          rw [hfrac, Prod.mk.injEq, Prod.mk.injEq]
          refine ⟨rfl, ?_, ?_⟩
          · field_simp
          · field_simp
            ring
        · -- R < G < B: min = R, hue in (180, 240)
          push_neg at hgr
          have hmn : min r (min g b) = r := by
            rw [min_eq_left (le_of_lt hgb), min_eq_left (le_of_lt hgr)]
          have hdpos : 0 < b - r := by linarith
          have hhval : 0 ≤ 240 + 60 * (r - g) / (b - r) := by
            have h1 : -1 ≤ (r - g) / (b - r) := by
              rw [le_div_iff hdpos]
              linarith
            have h2 : 60 * (r - g) / (b - r) = 60 * ((r - g) / (b - r)) := by ring
            rw [h2]
            linarith
          have hbgr : bgr2hsv b g r
              = (240 + 60 * (r - g) / (b - r), (b - r) / b, b) := by
            simp only [bgr2hsv, hvb, hmn]
            rw [if_neg hbrne, if_neg hbgne, if_neg (not_lt.mpr hhval), if_neg (ne_of_gt hbpos)]
          rw [hbgr]
          have hfrac : (240 + 60 * (r - g) / (b - r)) / 60 = (r - g) / (b - r) + 4 := by
            ring
          dsimp only
          rw [hsv2bgr_sector3 _ _ _
            (by rw [hfrac]
                have : -1 ≤ (r - g) / (b - r) := by
                  rw [le_div_iff hdpos]
                  linarith
                linarith)
            (by rw [hfrac]
                have : (r - g) / (b - r) < 0 :=
                  div_neg_of_neg_of_pos (by linarith) (by linarith)
                linarith)]
          rw [hfrac, Prod.mk.injEq, Prod.mk.injEq]
          refine ⟨rfl, ?_, ?_⟩
          · field_simp
            ring
          · field_simp

/-! ## C2: identity at zero intensity -/

theorem toUint8_intCast_id {n : ℤ} (h0 : 0 ≤ n) (h1 : n ≤ 255) :
    toUint8 (clip 0 255 (n : ℝ)) = n := by
  have hcl : clip 0 255 ((n : ℝ)) = (n : ℝ) := by
    unfold clip
    rw [max_eq_right (by exact_mod_cast h0), min_eq_right (by exact_mod_cast h1)]
  unfold toUint8 pyTrunc
  rw [hcl, if_neg (not_lt.mpr (by exact_mod_cast h0)), Int.floor_intCast]
  exact Int.emod_eq_of_lt h0 (by omega)

theorem reflect101_id {n : ℕ} {z : ℤ} (h0 : 0 ≤ z) (h1 : z < n) : reflect101 n z = z := by
  unfold reflect101
  by_cases hn : n ≤ 1
  · rw [if_pos hn]; omega
  · rw [if_neg hn]
    have hp : z % (2 * (n : ℤ) - 2) = z := Int.emod_eq_of_lt h0 (by omega)
    simp only [hp]
    rw [if_pos h1]

theorem gradePixel_zero (temp : String) (b g r : ℝ)
    (hb : 0 ≤ b) (hb1 : b ≤ 1) (hg : 0 ≤ g) (hg1 : g ≤ 1) (hr : 0 ≤ r) (hr1 : r ≤ 1) :
    gradePixel 0 temp b g r = (b, g, r) := by
  unfold gradePixel
  split_ifs with h1 h2 h3 h4
  · rw [Prod.mk.injEq, Prod.mk.injEq]
    refine ⟨rfl, ?_, ?_⟩ <;>
      · rw [zero_mul, add_zero, mul_one]
        unfold clip
        first
          | rw [max_eq_right hg, min_eq_right hg1]
          | rw [max_eq_right hr, min_eq_right hr1]
  · rw [Prod.mk.injEq, Prod.mk.injEq]
    refine ⟨?_, rfl, rfl⟩
    rw [zero_mul, add_zero, mul_one]
    unfold clip
    rw [max_eq_right hb, min_eq_right hb1]
  · dsimp only
    rw [show (1 : ℝ) - 0 * (3 / 10) = 1 by norm_num, mul_one]
    exact hsv_bgr_roundtrip b g r hb hg hr
  · rw [Prod.mk.injEq, Prod.mk.injEq]
    norm_num
  · rfl

theorem apply_color_grading_zero (f : Frame) (temp : String) (i j : ℤ) (c : Fin 3)
    (hin : FrameInRange f) (hi0 : 0 ≤ i) (hih : i < f.h) (hj0 : 0 ≤ j) (hjw : j < f.w) :
    (apply_color_grading f 0 temp).pix i j c = f.pix i j c := by
  have hbd := fun c' => hin i j c' hi0 hih hj0 hjw
  have hval : ∀ c' : Fin 3, 0 ≤ (f.pix i j c' : ℝ) / 255 ∧ (f.pix i j c' : ℝ) / 255 ≤ 1 := by
    intro c'
    constructor
    · apply div_nonneg _ (by norm_num)
      exact_mod_cast (hbd c').1
    · rw [div_le_one (by norm_num)]
      exact_mod_cast (hbd c').2
  have hch : ∀ x : ℤ, 0 ≤ x → x ≤ 255 → toUint8 (clip 0 255 ((x : ℝ) / 255 * 255)) = x := by
    intro x hx0 hx1
    rw [div_mul_cancel₀ _ (by norm_num : (255 : ℝ) ≠ 0)]
    exact toUint8_intCast_id hx0 hx1
  show toUint8 _ = _
  rw [gradePixel_zero temp _ _ _ (hval 0).1 (hval 0).2 (hval 1).1 (hval 1).2
    (hval 2).1 (hval 2).2]
  fin_cases c
  · split_ifs with hx hy
    · exact hch _ (hbd 0).1 (hbd 0).2
    · exact absurd rfl hx
    · exact absurd rfl hx
  · split_ifs with hx hy
    · exact absurd hx (by decide)
    · exact hch _ (hbd 1).1 (hbd 1).2
    · exact absurd rfl hy
  · split_ifs with hx hy
    · exact absurd hx (by decide)
    · exact absurd hy (by decide)
    · exact hch _ (hbd 2).1 (hbd 2).2

theorem apply_vignette_zero (f : Frame) (i j : ℤ) (c : Fin 3) (hin : FrameInRange f)
    (hi0 : 0 ≤ i) (hih : i < f.h) (hj0 : 0 ≤ j) (hjw : j < f.w) :
    (apply_vignette f 0).pix i j c = f.pix i j c := by
  show toUint8 _ = _
  dsimp only
  rw [Real.rpow_zero, mul_one]
  exact toUint8_intCast_id (hin i j c hi0 hih hj0 hjw).1 (hin i j c hi0 hih hj0 hjw).2

theorem cv_blur_one (f : Frame) (i j : ℤ) (c : Fin 3) (hin : FrameInRange f)
    (hi0 : 0 ≤ i) (hih : i < f.h) (hj0 : 0 ≤ j) (hjw : j < f.w) :
    (cv_blur f 1).pix i j c = f.pix i j c := by
  show satCast255 _ = _
  dsimp only
  rw [Finset.sum_range_one, Finset.sum_range_one]
  have hz : ((1 / 2 : ℕ) : ℤ) = 0 := by norm_num
  rw [hz]
  norm_num
  unfold sampleR
  rw [reflect101_id hi0 hih, reflect101_id hj0 hjw]
  unfold satCast255
  rw [min_eq_right (hin i j c hi0 hih hj0 hjw).2, max_eq_right (hin i j c hi0 hih hj0 hjw).1]

theorem apply_sharpen_zero (f : Frame) (i j : ℤ) (c : Fin 3) :
    (apply_sharpen f 0).pix i j c = 0 := by
  have hconv : conv2 f c (fun a b => (if a = 0 ∧ b = 0 then (9 : ℝ) else -1) * 0 / 8) 1 i j
      = 0 := by
    unfold conv2
    apply Finset.sum_eq_zero
    intro a _
    apply Finset.sum_eq_zero
    intro b _
    simp
  show satCast255 _ = _
  dsimp only
  rw [hconv]
  norm_num [satCast255]

/-- C2 counterexample: 'sharpen' dispatched at intensity 0 scales the whole
3×3 kernel by 0/8, so filter2D zeroes the frame: on a uniform frame of
value 100 the output pixel is 0, not 100 — not identity at zero intensity. -/
theorem c2_counterexample_sharpen_blackout :
    apply_effect_to_frame ⟨"sharpen", 0, 0, 10, []⟩ (fun _ _ => 0)
        ⟨3, 3, fun _ _ _ => 100⟩
      = Except.ok (apply_sharpen ⟨3, 3, fun _ _ _ => 100⟩ 0) ∧
    (apply_sharpen ⟨3, 3, fun _ _ _ => 100⟩ 0).pix 0 0 0 = 0 ∧
    (⟨3, 3, fun _ _ _ => 100⟩ : Frame).pix 0 0 0 = 100 :=
  ⟨rfl, apply_sharpen_zero _ 0 0 0, rfl⟩

/-- C2 amended: at intensity 0, the effects dispatched by
process_video_with_effects behave as follows: color_grade (every
temperature, the cinematic HSV round trip included), vignette and blur are
the identity on every in-bounds pixel; grain is never the identity — it
always raises cv2.error, because the dispatch uses the default even 2×2
GaussianBlur kernel — aborting the pass; and sharpen completes but
produces an all-zero (black) frame because its kernel is scaled by
intensity/8. -/
theorem c2_zero_intensity_amended (f : Frame) (noise : ℤ → ℤ → ℝ)
    (params : List (String × String)) (sf ef : ℤ) (i j : ℤ) (c : Fin 3)
    (hin : FrameInRange f) (hi0 : 0 ≤ i) (hih : i < f.h) (hj0 : 0 ≤ j) (hjw : j < f.w) :
    apply_effect_to_frame ⟨"color_grade", 0, sf, ef, params⟩ noise f
      = Except.ok (apply_color_grading f 0 ((params.lookup "color_temp").getD "warm")) ∧
    (apply_color_grading f 0 ((params.lookup "color_temp").getD "warm")).pix i j c
      = f.pix i j c ∧
    apply_effect_to_frame ⟨"grain", 0, sf, ef, params⟩ noise f
      = Except.error errGaussKsize ∧
    apply_effect_to_frame ⟨"vignette", 0, sf, ef, params⟩ noise f
      = Except.ok (apply_vignette f 0) ∧
    (apply_vignette f 0).pix i j c = f.pix i j c ∧
    apply_effect_to_frame ⟨"blur", 0, sf, ef, params⟩ noise f
      = Except.ok (cv_blur f 1) ∧
    (cv_blur f 1).pix i j c = f.pix i j c ∧
    apply_effect_to_frame ⟨"sharpen", 0, sf, ef, params⟩ noise f
      = Except.ok (apply_sharpen f 0) ∧
    (apply_sharpen f 0).pix i j c = 0 := by
  refine ⟨rfl, ?_, ?_, rfl, ?_, ?_, ?_, rfl, ?_⟩
  · exact apply_color_grading_zero f _ i j c hin hi0 hih hj0 hjw
  · show apply_cinematic_grain f 0 noise 2 = Except.error errGaussKsize
    unfold apply_cinematic_grain
    rw [if_neg (by norm_num), if_neg (by decide)]
  · exact apply_vignette_zero f i j c hin hi0 hih hj0 hjw
  · show (if 0 < pyTrunc ((0 : ℝ) * 21) * 2 + 1 then
        Except.ok (cv_blur f (pyTrunc ((0 : ℝ) * 21) * 2 + 1).toNat)
      else Except.error errBlurKsize) = Except.ok (cv_blur f 1)
    rw [show pyTrunc ((0 : ℝ) * 21) * 2 + 1 = 1 by norm_num [pyTrunc]]
    rw [if_pos (by norm_num)]
    rfl
  · exact cv_blur_one f i j c hin hi0 hih hj0 hjw
  · exact apply_sharpen_zero f i j c

/-- C2 amended witness: the dispatch facts at a concrete frame. -/
theorem c2_zero_intensity_amended_witness :
    apply_effect_to_frame ⟨"color_grade", 0, 0, 10, []⟩ (fun _ _ => 1)
        ⟨1, 1, fun _ _ _ => 7⟩
      = Except.ok (apply_color_grading ⟨1, 1, fun _ _ _ => 7⟩ 0
          ((List.lookup "color_temp" ([] : List (String × String))).getD "warm")) ∧
    (apply_color_grading ⟨1, 1, fun _ _ _ => 7⟩ 0
        ((List.lookup "color_temp" ([] : List (String × String))).getD "warm")).pix 0 0 0
      = (⟨1, 1, fun _ _ _ => 7⟩ : Frame).pix 0 0 0 ∧
    apply_effect_to_frame ⟨"grain", 0, 0, 10, []⟩ (fun _ _ => 1) ⟨1, 1, fun _ _ _ => 7⟩
      = Except.error errGaussKsize ∧
    apply_effect_to_frame ⟨"vignette", 0, 0, 10, []⟩ (fun _ _ => 1) ⟨1, 1, fun _ _ _ => 7⟩
      = Except.ok (apply_vignette ⟨1, 1, fun _ _ _ => 7⟩ 0) ∧
    (apply_vignette ⟨1, 1, fun _ _ _ => 7⟩ 0).pix 0 0 0
      = (⟨1, 1, fun _ _ _ => 7⟩ : Frame).pix 0 0 0 ∧
    apply_effect_to_frame ⟨"blur", 0, 0, 10, []⟩ (fun _ _ => 1) ⟨1, 1, fun _ _ _ => 7⟩
      = Except.ok (cv_blur ⟨1, 1, fun _ _ _ => 7⟩ 1) ∧
    (cv_blur ⟨1, 1, fun _ _ _ => 7⟩ 1).pix 0 0 0
      = (⟨1, 1, fun _ _ _ => 7⟩ : Frame).pix 0 0 0 ∧
    apply_effect_to_frame ⟨"sharpen", 0, 0, 10, []⟩ (fun _ _ => 1) ⟨1, 1, fun _ _ _ => 7⟩
      = Except.ok (apply_sharpen ⟨1, 1, fun _ _ _ => 7⟩ 0) ∧
    (apply_sharpen ⟨1, 1, fun _ _ _ => 7⟩ 0).pix 0 0 0 = 0 :=
  c2_zero_intensity_amended ⟨1, 1, fun _ _ _ => 7⟩ (fun _ _ => 1) [] 0 10 0 0 0
    (fun _ _ _ _ _ _ _ => ⟨by norm_num, by norm_num⟩)
    (le_refl 0) (by norm_num) (le_refl 0) (by norm_num)

end Srijan
